import Mathlib

/-
  Verification development for the k8s-monitoring repository's
  resource-quantity aggregation and normalization engine.

  Shallow embedding conventions:
  * JavaScript numbers are modelled exactly as rationals extended with the
    special values NaN, +Infinity and -Infinity (`JsNum`); IEEE-754 rounding
    of individual operations is idealized away (sums, unit multipliers and
    the 2-decimal formatting are exact here), and -0 is identified with 0.
  * JavaScript strings are modelled as `String` / `List Char`; `parseFloat`
    and `parseInt(_, 10)` are modelled faithfully on their grammar (optional
    leading whitespace, optional sign, longest numeric prefix, `Infinity`
    literal and exponent part for `parseFloat`; the legacy `0x` hex-prefix
    form of radix-less `parseInt` is not modelled).
  * Fallible reads of the cluster read port are `Except String` values;
    `async` fan-out is modelled by a record of already-resolved reads.
-/

-- ## JavaScript number model

/-- A JavaScript number: an exact rational, or one of the special values. -/
inductive JsNum where
  | nan : JsNum
  | inf : JsNum
  | ninf : JsNum
  | num : ℚ → JsNum
deriving DecidableEq

/-- JavaScript addition on `JsNum` (NaN propagates, Infinity - Infinity = NaN). -/
def jsAdd : JsNum → JsNum → JsNum
  | .num a, .num b => .num (a + b)
  | .nan, _ => .nan
  | _, .nan => .nan
  | .inf, .ninf => .nan
  | .ninf, .inf => .nan
  | .inf, _ => .inf
  | _, .inf => .inf
  | .ninf, _ => .ninf
  | _, .ninf => .ninf

/-- JavaScript multiplication on `JsNum` (0 * Infinity = NaN). -/
def jsMul : JsNum → JsNum → JsNum
  | .num a, .num b => .num (a * b)
  | .nan, _ => .nan
  | _, .nan => .nan
  | .inf, .inf => .inf
  | .inf, .ninf => .ninf
  | .ninf, .inf => .ninf
  | .ninf, .ninf => .inf
  | .inf, .num b => if 0 < b then .inf else if b < 0 then .ninf else .nan
  | .num a, .inf => if 0 < a then .inf else if a < 0 then .ninf else .nan
  | .ninf, .num b => if 0 < b then .ninf else if b < 0 then .inf else .nan
  | .num a, .ninf => if 0 < a then .ninf else if a < 0 then .inf else .nan

/-- JavaScript division on `JsNum` (x / 0 is signed Infinity or NaN; -0 identified with 0). -/
def jsDiv : JsNum → JsNum → JsNum
  | .nan, _ => .nan
  | _, .nan => .nan
  | .num a, .num b =>
      if b = 0 then (if 0 < a then .inf else if a < 0 then .ninf else .nan)
      else .num (a / b)
  | .inf, .num b => if b < 0 then .ninf else .inf
  | .ninf, .num b => if b < 0 then .inf else .ninf
  | .inf, .inf => .nan
  | .inf, .ninf => .nan
  | .ninf, .inf => .nan
  | .ninf, .ninf => .nan
  | .num _, .inf => .num 0
  | .num _, .ninf => .num 0

/-- JavaScript strict `>` comparison on `JsNum` (false whenever NaN is involved). -/
def jsGtB : JsNum → JsNum → Bool
  | .num a, .num b => decide (b < a)
  | .nan, _ => false
  | _, .nan => false
  | .inf, .inf => false
  | .inf, _ => true
  | _, .inf => false
  | .ninf, .ninf => false
  | .ninf, _ => false
  | _, .ninf => true

-- ## Character-list helpers (the JS string primitives used by the source)

/-- Splits off the longest leading run of decimal digits. -/
def takeDropDigits : List Char → List Char × List Char
  | [] => ([], [])
  | c :: cs =>
      if c.isDigit then
        let p := takeDropDigits cs
        (c :: p.1, p.2)
      else ([], c :: cs)

/-- Decimal value of a digit string (most significant first). -/
def digitsVal (ds : List Char) : ℕ :=
  ds.foldl (fun a c => 10 * a + (c.toNat - 48)) 0

/-- Splits an optional leading `+`/`-` sign; returns (isNegative, rest). -/
def splitSign : List Char → Bool × List Char
  | [] => (false, [])
  | c :: cs =>
      if c = '-' then (true, cs)
      else if c = '+' then (false, cs)
      else (false, c :: cs)

/-- `endsWith` on character lists (JavaScript `String.prototype.endsWith`). -/
def endsWithL (cs suf : List Char) : Bool :=
  suf.reverse.isPrefixOf cs.reverse

/-- Drops the last `n` characters (JavaScript `slice(0, -n)`). -/
def dropRightL (cs : List Char) (n : ℕ) : List Char :=
  cs.take (cs.length - n)

/-- Lower-cases every character (JavaScript `toLowerCase`, ASCII letters suffice here). -/
def toLowerL (cs : List Char) : List Char :=
  cs.map Char.toLower

-- ## parseFloat / parseInt

/-- Significand part of `parseFloat`: longest prefix of the form
`digits`, `digits.digits*` or `.digits`; returns its exact value and the rest. -/
def parseSigL (cs : List Char) : Option (ℚ × List Char) :=
  let d1 := (takeDropDigits cs).1
  let r1 := (takeDropDigits cs).2
  if r1.head? = some '.' then
    let d2 := (takeDropDigits r1.tail).1
    let r3 := (takeDropDigits r1.tail).2
    if d1 = [] ∧ d2 = [] then none
    else some ((digitsVal (d1 ++ d2) : ℚ) / (10 : ℚ) ^ d2.length, r3)
  else if d1 = [] then none
  else some ((digitsVal d1 : ℚ), r1)

/-- Exponent part of `parseFloat`: `e`/`E`, optional sign, digits; 0 when absent. -/
def parseExpL (cs : List Char) : ℤ :=
  if cs.head? = some 'e' ∨ cs.head? = some 'E' then
    let s := splitSign cs.tail
    let ds := (takeDropDigits s.2).1
    if ds = [] then 0
    else if s.1 then -(digitsVal ds : ℤ)
    else (digitsVal ds : ℤ)
  else 0

/-- JavaScript `parseFloat`: leading whitespace, optional sign, `Infinity`
literal or decimal significand with optional exponent; NaN when no numeric
prefix exists. Exact over ℚ (no IEEE rounding, no overflow to Infinity). -/
def jsParseFloatL (cs : List Char) : JsNum :=
  let cs1 := cs.dropWhile (fun c => c.isWhitespace)
  let s := splitSign cs1
  if s.2.take 8 = ['I', 'n', 'f', 'i', 'n', 'i', 't', 'y'] then
    (if s.1 then .ninf else .inf)
  else
    match parseSigL s.2 with
    | none => .nan
    | some (m, rest) =>
        let v := m * (10 : ℚ) ^ parseExpL rest
        .num (if s.1 then -v else v)

/-- JavaScript `parseInt(_, 10)`: leading whitespace, optional sign, longest
run of decimal digits; `none` models NaN. -/
def parseIntDecL (cs : List Char) : Option ℤ :=
  let cs1 := cs.dropWhile (fun c => c.isWhitespace)
  let s := splitSign cs1
  let ds := (takeDropDigits s.2).1
  if ds = [] then none
  else if s.1 then some (-(digitsVal ds : ℤ))
  else some (digitsVal ds : ℤ)

-- ## Decimal rendering (JavaScript number-to-string and toFixed)

/-- Decimal digit character for `n % 10`-style values. -/
def digitChar (n : ℕ) : Char := Char.ofNat (48 + n % 10)

/-- Fuel-based digit rendering; the fuel only bounds the recursion depth. -/
def natDigitsF : ℕ → ℕ → List Char
  | 0, _ => []
  | fuel + 1, n =>
      if n < 10 then [digitChar n]
      else natDigitsF fuel (n / 10) ++ [digitChar (n % 10)]

/-- Decimal digit string of a natural number (JavaScript template-string rendering). -/
def natDigits (n : ℕ) : List Char := natDigitsF (n + 1) n

/-- Decimal string of an integer. -/
def intStr (n : ℤ) : List Char :=
  if n < 0 then '-' :: natDigits (-n).toNat else natDigits n.toNat

/-- Two-digit zero-padded rendering of `n % 100` (the fraction part of `toFixed(2)`). -/
def pad2 (n : ℕ) : List Char :=
  [digitChar (n / 10), digitChar n]

/-- ECMAScript `toFixed(2)` on a non-negative rational: the integer `k`
closest to `100 * q` (ties towards the larger `k`), rendered as `k/100`. -/
def toFixed2Core (q : ℚ) : List Char :=
  let k := (⌊q * 100 + 1 / 2⌋).toNat
  natDigits (k / 100) ++ '.' :: pad2 (k % 100)

/-- ECMAScript `toFixed(2)` including the sign. -/
def toFixed2L (q : ℚ) : List Char :=
  if q < 0 then '-' :: toFixed2Core (-q) else toFixed2Core q

/-- ECMAScript `toFixed(0)` on a non-negative rational. -/
def toFixed0Core (q : ℚ) : List Char :=
  natDigits (⌊q + 1 / 2⌋).toNat

/-- ECMAScript `toFixed(0)` including the sign. -/
def toFixed0L (q : ℚ) : List Char :=
  if q < 0 then '-' :: toFixed0Core (-q) else toFixed0Core q

/-- JavaScript `Math.round` composed with template-string rendering:
the `${Math.round(x)}` glue used by `getClusterOverview`. -/
def jsRoundStr (x : JsNum) : List Char :=
  match x with
  | .num q => intStr ⌊q + 1 / 2⌋
  | .nan => ['N', 'a', 'N']
  | .inf => ['I', 'n', 'f', 'i', 'n', 'i', 't', 'y']
  | .ninf => '-' :: ['I', 'n', 'f', 'i', 'n', 'i', 't', 'y']

-- ## src/unnamed/part_016 — getClusterOverview's quantity parsers

/-- `toNanocores` from `getClusterOverview` (part_016 lines 58-67): CPU string
to nanocores; empty string is falsy and yields 0. -/
def toNanocoresL (cs : List Char) : JsNum :=
  if cs = [] then .num 0
  else if endsWithL cs ['m'] then jsMul (jsParseFloatL (dropRightL cs 1)) (.num 1000000)
  else if endsWithL cs ['n'] then jsParseFloatL (dropRightL cs 1)
  else jsMul (jsParseFloatL cs) (.num 1000000000)

/-- String wrapper for `toNanocoresL`. -/
def toNanocores (s : String) : JsNum := toNanocoresL s.data

/-- `toKibibytes` from `getClusterOverview` (part_016 lines 70-86): memory
string to kibibytes; only the case-sensitive suffixes Ki/Mi/Gi/Ti are
recognized, anything else falls through to the assume-bytes branch. -/
def toKibibytesL (cs : List Char) : JsNum :=
  if cs = [] then .num 0
  else if endsWithL cs ['K', 'i'] then jsParseFloatL (dropRightL cs 2)
  else if endsWithL cs ['M', 'i'] then jsMul (jsParseFloatL (dropRightL cs 2)) (.num 1024)
  else if endsWithL cs ['G', 'i'] then
    jsMul (jsMul (jsParseFloatL (dropRightL cs 2)) (.num 1024)) (.num 1024)
  else if endsWithL cs ['T', 'i'] then
    jsMul (jsMul (jsMul (jsParseFloatL (dropRightL cs 2)) (.num 1024)) (.num 1024)) (.num 1024)
  else jsDiv (jsParseFloatL cs) (.num 1024)

/-- String wrapper for `toKibibytesL`. -/
def toKibibytes (s : String) : JsNum := toKibibytesL s.data

-- ## src/unnamed/part_017 — the historical variant with an estimate fallback

/-- `parseCpu` from the part_017 variant of `getClusterOverview` (lines 58-67):
CPU string to whole cores. -/
def parseCpu17L (cs : List Char) : JsNum :=
  if cs = [] then .num 0
  else if endsWithL cs ['m'] then jsDiv (jsParseFloatL (dropRightL cs 1)) (.num 1000)
  else if endsWithL cs ['n'] then jsDiv (jsParseFloatL (dropRightL cs 1)) (.num 1000000000)
  else jsParseFloatL cs

/-- String wrapper for `parseCpu17L`. -/
def parseCpu17 (s : String) : JsNum := parseCpu17L s.data

-- ## src/unnamed/part_003 — formatters.ts

/-- The regex match `^(\d+(?:\.\d+)?)(.*?)$` used by `formatMemory` and
`memoryToBytes`: leading digits, optionally a dot followed by at least one
digit, the rest is the unit token. `none` models a failed match. -/
def matchQL (cs : List Char) : Option (ℚ × List Char) :=
  let d1 := (takeDropDigits cs).1
  let r1 := (takeDropDigits cs).2
  if d1 = [] then none
  else if r1.head? = some '.' then
    let d2 := (takeDropDigits r1.tail).1
    if d2 = [] then some ((digitsVal d1 : ℚ), r1)
    else some ((digitsVal (d1 ++ d2) : ℚ) / (10 : ℚ) ^ d2.length, (takeDropDigits r1.tail).2)
  else some ((digitsVal d1 : ℚ), r1)

/-- The unit-multiplier switch of `formatMemory`/`memoryToBytes` on the
lower-cased unit token; unrecognized tokens fall through to bytes (1). -/
def unitMul (u : List Char) : ℚ :=
  if u = ['k', 'i'] then 1024
  else if u = ['m', 'i'] then 1024 ^ 2
  else if u = ['g', 'i'] then 1024 ^ 3
  else if u = ['t', 'i'] then 1024 ^ 4
  else if u = ['p', 'i'] then 1024 ^ 5
  else if u = ['k'] then 1000
  else if u = ['m'] then 1000 ^ 2
  else if u = ['g'] then 1000 ^ 3
  else if u = ['t'] then 1000 ^ 4
  else if u = ['p'] then 1000 ^ 5
  else 1

/-- `memoryToBytes` (part_003 lines 265-311): memory string to bytes;
a failed match yields 0, unrecognized suffixes are treated as bytes. -/
def memoryToBytesL (cs : List Char) : ℚ :=
  match matchQL cs with
  | none => 0
  | some (v, u) => v * unitMul (toLowerL u)

/-- String wrapper for `memoryToBytesL`. -/
def memoryToBytes (s : String) : ℚ := memoryToBytesL s.data

/-- The `replace(/n$/i, '')` step of the CPU helpers: strips one trailing
`n` or `N`. -/
def stripTrailingN (cs : List Char) : List Char :=
  if endsWithL cs ['n'] || endsWithL cs ['N'] then dropRightL cs 1 else cs

/-- `formatCPU` (part_003 lines 104-124): nanocore string to a human-readable
CPU string; NaN input renders as "0". -/
def formatCPUL (cs : List Char) : List Char :=
  match parseIntDecL (stripTrailingN cs) with
  | none => ['0']
  | some n =>
      if (n : ℚ) / 1000000 < 1000 then toFixed2L ((n : ℚ) / 1000000) ++ ['m']
      else toFixed2L ((n : ℚ) / 1000000 / 1000)

/-- String wrapper for `formatCPUL`. -/
def formatCPU (s : String) : String := ⟨formatCPUL s.data⟩

/-- `formatMemory` (part_003 lines 170-230): memory string to a human-readable
binary-unit string. -/
def formatMemoryL (cs : List Char) : List Char :=
  match matchQL cs with
  | none => ['0', ' ', 'B']
  | some (v, u) =>
      let bytes := v * unitMul (toLowerL u)
      if (1024 : ℚ) ^ 4 ≤ bytes then toFixed2L (bytes / 1024 ^ 4) ++ [' ', 'T', 'i', 'B']
      else if (1024 : ℚ) ^ 3 ≤ bytes then toFixed2L (bytes / 1024 ^ 3) ++ [' ', 'G', 'i', 'B']
      else if (1024 : ℚ) ^ 2 ≤ bytes then toFixed2L (bytes / 1024 ^ 2) ++ [' ', 'M', 'i', 'B']
      else if (1024 : ℚ) ≤ bytes then toFixed2L (bytes / 1024) ++ [' ', 'K', 'i', 'B']
      else toFixed0L bytes ++ [' ', 'B']

/-- String wrapper for `formatMemoryL`. -/
def formatMemory (s : String) : String := ⟨formatMemoryL s.data⟩

/-- `getCPUPercentage` (part_003 lines 153-163): numeric utilization
percentage from a nanocore string and a total-cores number; returns 0 on a
NaN parse or a zero total. -/
def getCPUPercentage (s : String) (totalCores : ℚ) : ℚ :=
  match parseIntDecL (stripTrailingN s.data) with
  | none => 0
  | some n =>
      if totalCores = 0 then 0
      else (n : ℚ) / 1000000000 / totalCores * 100

/-- `getMemoryPercentage` (part_003 lines 249-258): numeric utilization
percentage from two memory strings; returns 0 when the total parses to 0. -/
def getMemoryPercentage (memoryValue totalMemory : String) : ℚ :=
  let usedBytes := memoryToBytes memoryValue
  let totalBytes := memoryToBytes totalMemory
  if totalBytes = 0 then 0
  else usedBytes / totalBytes * 100

-- ## Cluster data model (the fields of the control-plane responses read
-- ## by getClusterOverview in src/unnamed/part_016)

/-- JavaScript `x || d` on an optional string: `undefined` and `""` are falsy. -/
def jsOrStr (o : Option String) (d : String) : String :=
  match o with
  | some s => if s = "" then d else s
  | none => d

/-- `capacity`/`allocatable` maps of a node status (only the fields read). -/
structure ResCaps where
  cpu : Option String
  memory : Option String
  pods : Option String
deriving DecidableEq

/-- One entry of `node.status.conditions`. -/
structure NodeCondition where
  type : Option String
  status : Option String
deriving DecidableEq

/-- `node.status` (only the fields read). -/
structure NodeStatus where
  capacity : Option ResCaps
  allocatable : Option ResCaps
  conditions : Option (List NodeCondition)
deriving DecidableEq

/-- A node list item. -/
structure Node where
  status : Option NodeStatus
deriving DecidableEq

/-- `requests` / `limits` maps of a container. -/
structure ResourceReqs where
  cpu : Option String
  memory : Option String
deriving DecidableEq

/-- `container.resources`. -/
structure ContainerResources where
  requests : Option ResourceReqs
  limits : Option ResourceReqs
deriving DecidableEq

/-- A container of a pod spec. -/
structure Container where
  resources : Option ContainerResources
deriving DecidableEq

/-- `pod.spec` (only the fields read). -/
structure PodSpec where
  containers : Option (List Container)
deriving DecidableEq

/-- `pod.status` (only the fields read). -/
structure PodStatus where
  phase : Option String
deriving DecidableEq

/-- A pod list item. -/
structure Pod where
  spec : Option PodSpec
  status : Option PodStatus
deriving DecidableEq

/-- A namespace list item (only counted by the overview). -/
structure NamespaceItem where
  name : Option String
deriving DecidableEq

/-- `deployment.spec` (only the fields read). -/
structure DeploymentSpec where
  replicas : Option ℤ
deriving DecidableEq

/-- `deployment.status` (only the fields read). -/
structure DeploymentStatus where
  readyReplicas : Option ℤ
deriving DecidableEq

/-- A deployment list item. -/
structure Deployment where
  spec : Option DeploymentSpec
  status : Option DeploymentStatus
deriving DecidableEq

/-- `event.metadata` (only the creation timestamp is read). -/
structure EventMetadata where
  creationTimestamp : Option ℤ
deriving DecidableEq

/-- An event list item; timestamps are epoch milliseconds. -/
structure Event where
  type : Option String
  reason : Option String
  lastTimestamp : Option ℤ
  eventTime : Option ℤ
  metadata : Option EventMetadata
deriving DecidableEq

/-- A node-metrics sample's `usage` map. -/
structure Usage where
  cpu : Option String
  memory : Option String
deriving DecidableEq

/-- A node-metrics list item. -/
structure NodeMetricItem where
  usage : Option Usage
deriving DecidableEq

/-- `pv.spec.capacity`. -/
structure PVCapacity where
  storage : Option String
deriving DecidableEq

/-- `pv.spec`. -/
structure PVSpec where
  capacity : Option PVCapacity
deriving DecidableEq

/-- `pv.status`. -/
structure PVStatus where
  phase : Option String
deriving DecidableEq

/-- A persistent-volume list item. -/
structure PV where
  spec : Option PVSpec
  status : Option PVStatus
deriving DecidableEq

/-- The cluster read port: the seven reads `getClusterOverview` issues,
already resolved. A `.error` value models a rejected promise. -/
structure ClusterReadPort where
  nodes : Except String (List Node)
  pods : Except String (List Pod)
  namespaces : Except String (List NamespaceItem)
  deployments : Except String (List Deployment)
  events : Except String (List Event)
  nodeMetrics : Except String (List NodeMetricItem)
  persistentVolumes : Except String (List PV)

-- ## The overview result shape (part_016 lines 184-230)

/-- One dimension's figures in the overview: rendered base-unit strings;
`used` is `none` ("absent") when no positive usage sum exists. -/
structure ResourceFigureStr where
  used : Option String
  total : String
  requests : String
  limits : String
deriving DecidableEq

/-- The `nodes` section of the overview. -/
structure OverviewNodes where
  total : ℕ
  ready : ℕ
  cpu : ResourceFigureStr
  memory : ResourceFigureStr
deriving DecidableEq

/-- The `pods` section of the overview. -/
structure OverviewPods where
  total : ℕ
  running : ℕ
  pending : ℕ
  failed : ℕ
  capacity : JsNum
deriving DecidableEq

/-- The `namespaces` section of the overview. -/
structure OverviewNamespaces where
  total : ℕ
deriving DecidableEq

/-- The `deployments` section of the overview. -/
structure OverviewDeployments where
  total : ℕ
  available : ℕ
deriving DecidableEq

/-- The `events` section of the overview. -/
structure OverviewEvents where
  warnings : ℕ
  errors : ℕ
deriving DecidableEq

/-- The optional `storage` section of the overview. -/
structure OverviewStorage where
  totalCapacity : String
  boundCapacity : String
  volumeCount : ℕ
deriving DecidableEq

/-- The full overview record returned by `getClusterOverview`. -/
structure Overview where
  nodes : OverviewNodes
  pods : OverviewPods
  namespaces : OverviewNamespaces
  deployments : OverviewDeployments
  events : OverviewEvents
  storage : Option OverviewStorage
deriving DecidableEq

-- ## The aggregation sums of getClusterOverview (part_016 lines 88-130)

/-- `totalCpuNanocores`: capacity CPU summed over nodes (lines 99-104). -/
def totalCpuSum (ns : List Node) : JsNum :=
  ns.foldl (fun acc n =>
    match n.status with
    | some st =>
        match st.capacity with
        | some cap => jsAdd acc (toNanocores (jsOrStr cap.cpu "0"))
        | none => acc
    | none => acc) (.num 0)

/-- `totalMemoryKi`: capacity memory summed over nodes (lines 99-104). -/
def totalMemSum (ns : List Node) : JsNum :=
  ns.foldl (fun acc n =>
    match n.status with
    | some st =>
        match st.capacity with
        | some cap => jsAdd acc (toKibibytes (jsOrStr cap.memory "0"))
        | none => acc
    | none => acc) (.num 0)

/-- `usedCpuNanocores`: usage CPU summed over node-metrics samples (lines 107-114). -/
def usedCpuSum (ms : List NodeMetricItem) : JsNum :=
  ms.foldl (fun acc m =>
    match m.usage with
    | some u => jsAdd acc (toNanocores (jsOrStr u.cpu "0"))
    | none => acc) (.num 0)

/-- `usedMemoryKi`: usage memory summed over node-metrics samples (lines 107-114). -/
def usedMemSum (ms : List NodeMetricItem) : JsNum :=
  ms.foldl (fun acc m =>
    match m.usage with
    | some u => jsAdd acc (toKibibytes (jsOrStr u.memory "0"))
    | none => acc) (.num 0)

/-- `requestedCpuNanocores`: container CPU requests summed over all pods
(lines 117-130). -/
def requestedCpuSum (ps : List Pod) : JsNum :=
  ps.foldl (fun acc p =>
    match p.spec with
    | some sp =>
        match sp.containers with
        | some cs =>
            cs.foldl (fun acc2 c =>
              match c.resources with
              | some r =>
                  match r.requests with
                  | some rq => jsAdd acc2 (toNanocores (jsOrStr rq.cpu "0"))
                  | none => acc2
              | none => acc2) acc
        | none => acc
    | none => acc) (.num 0)

/-- `requestedMemoryKi`: container memory requests summed over all pods. -/
def requestedMemSum (ps : List Pod) : JsNum :=
  ps.foldl (fun acc p =>
    match p.spec with
    | some sp =>
        match sp.containers with
        | some cs =>
            cs.foldl (fun acc2 c =>
              match c.resources with
              | some r =>
                  match r.requests with
                  | some rq => jsAdd acc2 (toKibibytes (jsOrStr rq.memory "0"))
                  | none => acc2
              | none => acc2) acc
        | none => acc
    | none => acc) (.num 0)

/-- `limitCpuNanocores`: container CPU limits summed over all pods. -/
def limitCpuSum (ps : List Pod) : JsNum :=
  ps.foldl (fun acc p =>
    match p.spec with
    | some sp =>
        match sp.containers with
        | some cs =>
            cs.foldl (fun acc2 c =>
              match c.resources with
              | some r =>
                  match r.limits with
                  | some lm => jsAdd acc2 (toNanocores (jsOrStr lm.cpu "0"))
                  | none => acc2
              | none => acc2) acc
        | none => acc
    | none => acc) (.num 0)

/-- `limitMemoryKi`: container memory limits summed over all pods. -/
def limitMemSum (ps : List Pod) : JsNum :=
  ps.foldl (fun acc p =>
    match p.spec with
    | some sp =>
        match sp.containers with
        | some cs =>
            cs.foldl (fun acc2 c =>
              match c.resources with
              | some r =>
                  match r.limits with
                  | some lm => jsAdd acc2 (toKibibytes (jsOrStr lm.memory "0"))
                  | none => acc2
              | none => acc2) acc
        | none => acc
    | none => acc) (.num 0)

/-- `parseInt(x, 10)` lifted to a `JsNum` result (NaN when no digits). -/
def parseIntJsNum (s : String) : JsNum :=
  match parseIntDecL s.data with
  | some n => .num (n : ℚ)
  | none => .nan

/-- `totalPodCapacity` (lines 133-136): per-node max-pods capacity summed,
with the `'110'` fallback string when the field is missing or empty. -/
def podCapacitySum (ns : List Node) : JsNum :=
  ns.foldl (fun acc n =>
    jsAdd acc (parseIntJsNum (jsOrStr
      ((n.status.bind fun st => st.capacity).bind fun cap => cap.pods) "110"))) (.num 0)

-- ## Event analysis (part_016 lines 150-161)

/-- `event.lastTimestamp || event.eventTime || event.metadata?.creationTimestamp`. -/
def eventTimeOf (e : Event) : Option ℤ :=
  (e.lastTimestamp.orElse fun _ => e.eventTime).orElse fun _ =>
    e.metadata.bind fun m => m.creationTimestamp

/-- One step of the event loop: bumps the warning/error counters for a
recent event ("recent" = strictly later than one hour before `now`). -/
def analyzeStep (now : ℤ) (wr : ℕ × ℕ) (e : Event) : ℕ × ℕ :=
  match eventTimeOf e with
  | some t =>
      if now - 3600000 < t then
        ((if e.type == some "Warning" then wr.1 + 1 else wr.1),
         (if e.type == some "Error" || e.reason == some "Failed"
             || e.reason == some "FailedScheduling" then wr.2 + 1 else wr.2))
      else wr
  | none => wr

/-- The warnings/errors counters over the event collection. -/
def analyzeEvents (now : ℤ) (es : List Event) : ℕ × ℕ :=
  es.foldl (analyzeStep now) (0, 0)

-- ## Storage section (part_016 lines 163-182 and 221-229)

/-- `storageTotalKi` and `storageBoundKi` summed over persistent volumes;
only a present, non-empty capacity string contributes. -/
def storageSums (pvs : List PV) : JsNum × JsNum :=
  pvs.foldl (fun tb pv =>
    match (pv.spec.bind fun sp => sp.capacity).bind fun cap => cap.storage with
    | some s =>
        if s = "" then tb
        else
          ((jsAdd tb.1 (toKibibytes s)),
           (if pv.status.bind (fun st => st.phase) = some "Bound" then
              jsAdd tb.2 (toKibibytes s)
            else tb.2))
    | none => tb) (.num 0, .num 0)

/-- The optional `storage` section: omitted when the PV read failed (caught)
or no PVs exist. -/
def storageSection (pvE : Except String (List PV)) : Option OverviewStorage :=
  match pvE with
  | .error _ => none
  | .ok pvs =>
      if 0 < pvs.length then
        some { totalCapacity := ⟨jsRoundStr (storageSums pvs).1 ++ ['K', 'i']⟩
               boundCapacity := ⟨jsRoundStr (storageSums pvs).2 ++ ['K', 'i']⟩
               volumeCount := pvs.length }
      else none

-- ## Row predicates (part_016 lines 139-148 and 187-189)

/-- `n.status?.conditions?.some(c => c.type === 'Ready' && c.status === 'True')`. -/
def nodeReadyB (n : Node) : Bool :=
  match n.status with
  | some st =>
      match st.conditions with
      | some cs => cs.any fun c => c.type == some "Ready" && c.status == some "True"
      | none => false
  | none => false

/-- `p.status?.phase === phase`. -/
def podPhaseIs (phase : String) (p : Pod) : Bool :=
  (p.status.bind fun st => st.phase) == some phase

/-- `(d.status?.readyReplicas || 0) === (d.spec?.replicas || 0) && (d.spec?.replicas || 0) > 0`. -/
def deploymentAvailableB (d : Deployment) : Bool :=
  ((d.status.bind fun st => st.readyReplicas).getD 0
      == (d.spec.bind fun sp => sp.replicas).getD 0)
    && decide (0 < (d.spec.bind fun sp => sp.replicas).getD 0)

-- ## getClusterOverview (part_016 lines 35-235)

/-- The recovered events collection: a failed events read degrades to an
empty list (the `.catch` on line 45). -/
def eventsOf (port : ClusterReadPort) : List Event :=
  match port.events with
  | .ok es => es
  | .error _ => []

/-- The used-CPU sum: zero when the node-metrics read failed (caught, lines
48-55 and 107-114 leave the accumulator at 0). -/
def usedCpuOf (port : ClusterReadPort) : JsNum :=
  match port.nodeMetrics with
  | .ok ms => usedCpuSum ms
  | .error _ => .num 0

/-- The used-memory sum under the same fallback. -/
def usedMemOf (port : ClusterReadPort) : JsNum :=
  match port.nodeMetrics with
  | .ok ms => usedMemSum ms
  | .error _ => .num 0

/-- The overview record assembled from successful required reads
(part_016 lines 184-230). -/
def mkOverview (now : ℤ) (port : ClusterReadPort) (ns : List Node) (ps : List Pod)
    (nss : List NamespaceItem) (ds : List Deployment) : Overview :=
  { nodes :=
      { total := ns.length
        ready := ns.countP nodeReadyB
        cpu :=
          { used :=
              if jsGtB (usedCpuOf port) (.num 0) then
                some ⟨jsRoundStr (usedCpuOf port) ++ ['n']⟩
              else none
            total := ⟨jsRoundStr (totalCpuSum ns) ++ ['n']⟩
            requests := ⟨jsRoundStr (requestedCpuSum ps) ++ ['n']⟩
            limits := ⟨jsRoundStr (limitCpuSum ps) ++ ['n']⟩ }
        memory :=
          { used :=
              if jsGtB (usedMemOf port) (.num 0) then
                some ⟨jsRoundStr (usedMemOf port) ++ ['K', 'i']⟩
              else none
            total := ⟨jsRoundStr (totalMemSum ns) ++ ['K', 'i']⟩
            requests := ⟨jsRoundStr (requestedMemSum ps) ++ ['K', 'i']⟩
            limits := ⟨jsRoundStr (limitMemSum ps) ++ ['K', 'i']⟩ } }
    pods :=
      { total := ps.length
        running := ps.countP (podPhaseIs "Running")
        pending := ps.countP (podPhaseIs "Pending")
        failed := ps.countP (podPhaseIs "Failed")
        capacity := podCapacitySum ns }
    namespaces := { total := nss.length }
    deployments :=
      { total := ds.length
        available := ds.countP deploymentAvailableB }
    events :=
      { warnings := (analyzeEvents now (eventsOf port)).1
        errors := (analyzeEvents now (eventsOf port)).2 }
    storage := storageSection port.persistentVolumes }

/-- `getClusterOverview` from src/unnamed/part_016: the events read is
recovered to an empty collection, the node-metrics read to `null`, the
persistent-volume read to an omitted storage section; the four required
reads are fatal and re-thrown. `now` is the clock reading for the one-hour
event window. -/
def getClusterOverview (now : ℤ) (port : ClusterReadPort) : Except String Overview :=
  match port.nodes with
  | .error e => .error e
  | .ok ns =>
    match port.pods with
    | .error e => .error e
    | .ok ps =>
      match port.namespaces with
      | .error e => .error e
      | .ok nss =>
        match port.deployments with
        | .error e => .error e
        | .ok ds => .ok (mkOverview now port ns ps nss ds)

-- ## The part_017 variant's synthetic usage estimate (part_017 lines 110-118)

/-- `Modelled from src/unnamed/part_017`: when the metrics read fails, that
variant estimates used CPU as 50% of each node's allocatable CPU (in cores). -/
def part017UsedCpuFallback (ns : List Node) : JsNum :=
  ns.foldl (fun acc n =>
    match n.status with
    | some st =>
        match st.allocatable with
        | some al => jsAdd acc (jsMul (parseCpu17 (jsOrStr al.cpu "0")) (.num (1 / 2)))
        | none => acc
    | none => acc) (.num 0)

/-- Decidable equality for `Except` results, used to evaluate concrete runs. -/
instance {ε α : Type} [DecidableEq ε] [DecidableEq α] : DecidableEq (Except ε α) := fun x y =>
  match x, y with
  | .ok a, .ok b =>
      if h : a = b then isTrue (by rw [h])
      else isFalse (by intro he; cases he; exact h rfl)
  | .error a, .error b =>
      if h : a = b then isTrue (by rw [h])
      else isFalse (by intro he; cases he; exact h rfl)
  | .ok _, .error _ => isFalse (by intro he; cases he)
  | .error _, .ok _ => isFalse (by intro he; cases he)

/-- Per-node capacity CPU contribution. -/
def cpuCapOf (n : Node) : JsNum :=
  match n.status with
  | some st =>
      match st.capacity with
      | some cap => toNanocores (jsOrStr cap.cpu "0")
      | none => .num 0
  | none => .num 0

/-- Per-node capacity memory contribution. -/
def memCapOf (n : Node) : JsNum :=
  match n.status with
  | some st =>
      match st.capacity with
      | some cap => toKibibytes (jsOrStr cap.memory "0")
      | none => .num 0
  | none => .num 0

/-- Per-container requested-CPU contribution. -/
def cpuReqOf (c : Container) : JsNum :=
  match c.resources with
  | some r =>
      match r.requests with
      | some rq => toNanocores (jsOrStr rq.cpu "0")
      | none => .num 0
  | none => .num 0

/-- Per-container requested-memory contribution. -/
def memReqOf (c : Container) : JsNum :=
  match c.resources with
  | some r =>
      match r.requests with
      | some rq => toKibibytes (jsOrStr rq.memory "0")
      | none => .num 0
  | none => .num 0

/-- Per-container limit-CPU contribution. -/
def cpuLimOf (c : Container) : JsNum :=
  match c.resources with
  | some r =>
      match r.limits with
      | some lm => toNanocores (jsOrStr lm.cpu "0")
      | none => .num 0
  | none => .num 0

/-- Per-container limit-memory contribution. -/
def memLimOf (c : Container) : JsNum :=
  match c.resources with
  | some r =>
      match r.limits with
      | some lm => toKibibytes (jsOrStr lm.memory "0")
      | none => .num 0
  | none => .num 0

/-- Per-pod sum of a container contribution. -/
def podSumOf (sel : Container → JsNum) (p : Pod) : JsNum :=
  match p.spec with
  | some sp =>
      match sp.containers with
      | some cs => cs.foldl (fun acc x => jsAdd acc (sel x)) (.num 0)
      | none => .num 0
  | none => .num 0

/-- Digit string and value of a decimal numeral with integer digits `d1` and
fraction digits `d2` (empty `d2` = no decimal point). -/
def numeralChars (d1 d2 : List Char) : List Char :=
  if d2 = [] then d1 else d1 ++ '.' :: d2

/-- The rational value of the numeral. -/
def numeralVal (d1 d2 : List Char) : ℚ :=
  (digitsVal (d1 ++ d2) : ℚ) / (10 : ℚ) ^ d2.length

/-- A unit token that can follow a numeral without extending it: empty, or
headed by a character that is not a digit, dot, or exponent marker. -/
def headSafeB (u : List Char) : Bool :=
  match u with
  | [] => true
  | c :: _ => !c.isDigit && !(c == '.') && !(c == 'e') && !(c == 'E')

-- ## Concrete inputs used by witnesses and counterexamples

/-- A node-metrics sample reporting zero usage for both dimensions. -/
def zeroUsageMetric : NodeMetricItem :=
  { usage := some { cpu := some "0n", memory := some "0Ki" } }

/-- A port whose metrics read succeeds with one zero-usage sample. -/
def portC1 : ClusterReadPort :=
  { nodes := .ok []
    pods := .ok []
    namespaces := .ok []
    deployments := .ok []
    events := .ok []
    nodeMetrics := .ok [zeroUsageMetric]
    persistentVolumes := .ok [] }

/-- A node with 2 allocatable cores (for the part_017 estimate fallback). -/
def allocNode2 : Node :=
  { status := some
      { capacity := none
        allocatable := some { cpu := some "2", memory := none, pods := none }
        conditions := none } }

/-- A port whose optional events read failed and whose required reads succeed. -/
def portC5W : ClusterReadPort :=
  { nodes := .ok []
    pods := .ok []
    namespaces := .ok []
    deployments := .ok []
    events := .error "events read failed"
    nodeMetrics := .error "metrics read failed"
    persistentVolumes := .error "pv read failed" }

/-- Two nodes with different capacities. -/
def nodeA : Node :=
  { status := some
      { capacity := some { cpu := some "1", memory := some "1024Ki", pods := some "110" }
        allocatable := none
        conditions := none } }

def nodeB : Node :=
  { status := some
      { capacity := some { cpu := some "2", memory := some "2048Ki", pods := some "100" }
        allocatable := none
        conditions := none } }

/-- Two pods with different container requests and limits. -/
def podA : Pod :=
  { spec := some
      { containers := some
          [{ resources := some
              { requests := some { cpu := some "100m", memory := some "128Mi" }
                limits := some { cpu := some "200m", memory := some "256Mi" } } }] }
    status := some { phase := some "Running" } }

def podB : Pod :=
  { spec := some
      { containers := some
          [{ resources := some
              { requests := some { cpu := some "250m", memory := some "64Mi" }
                limits := some { cpu := some "1", memory := some "512Mi" } } }] }
    status := some { phase := some "Pending" } }

/-- Two ports that differ only in the order of their node and pod lists. -/
def portC9A : ClusterReadPort :=
  { nodes := .ok [nodeA, nodeB]
    pods := .ok [podA, podB]
    namespaces := .ok []
    deployments := .ok []
    events := .ok []
    nodeMetrics := .error "metrics down"
    persistentVolumes := .error "pv down" }

def portC9B : ClusterReadPort :=
  { nodes := .ok [nodeB, nodeA]
    pods := .ok [podB, podA]
    namespaces := .ok []
    deployments := .ok []
    events := .ok []
    nodeMetrics := .error "metrics down"
    persistentVolumes := .error "pv down" }

/-- A recent Warning event with reason Failed. -/
def eventC10 : Event :=
  { type := some "Warning"
    reason := some "Failed"
    lastTimestamp := some 1
    eventTime := none
    metadata := none }

/-- The requested/limited/total figure fields of an overview, for both
dimensions (the fields claim C9 is about). -/
def overviewFigures (o : Overview) : List String :=
  [o.nodes.cpu.total, o.nodes.cpu.requests, o.nodes.cpu.limits,
   o.nodes.memory.total, o.nodes.memory.requests, o.nodes.memory.limits]

-- ## Algebraic lemmas about jsAdd and the fold sums

theorem jsAdd_comm (x y : JsNum) : jsAdd x y = jsAdd y x := by
  cases x <;> cases y <;> simp [jsAdd] <;> ring

theorem jsAdd_assoc (x y z : JsNum) : jsAdd (jsAdd x y) z = jsAdd x (jsAdd y z) := by
  cases x <;> cases y <;> cases z <;> simp [jsAdd] <;> ring

theorem jsAdd_zero_right (x : JsNum) : jsAdd x (.num 0) = x := by
  cases x <;> simp [jsAdd]

theorem jsAdd_zero_left (x : JsNum) : jsAdd (.num 0) x = x := by
  cases x <;> simp [jsAdd]

/-- Folding `jsAdd` of per-element contributions is invariant under
permutations of the list. -/
theorem foldl_jsAdd_perm {α : Type} (g : α → JsNum) {l₁ l₂ : List α} (h : l₁.Perm l₂) :
    ∀ a : JsNum, l₁.foldl (fun acc x => jsAdd acc (g x)) a
      = l₂.foldl (fun acc x => jsAdd acc (g x)) a := by
  induction h with
  | nil => intro a; rfl
  | cons x _ ih =>
      intro a
      simp only [List.foldl_cons]
      exact ih _
  | swap x y l =>
      intro a
      simp only [List.foldl_cons]
      rw [jsAdd_assoc, jsAdd_assoc, jsAdd_comm (g y) (g x)]
  | trans _ _ ih₁ ih₂ =>
      intro a
      exact (ih₁ a).trans (ih₂ a)

/-- Folding `jsAdd` from an arbitrary accumulator equals adding the fold
from zero. -/
theorem foldl_jsAdd_shift {α : Type} (g : α → JsNum) (l : List α) :
    ∀ a : JsNum, l.foldl (fun acc x => jsAdd acc (g x)) a
      = jsAdd a (l.foldl (fun acc x => jsAdd acc (g x)) (.num 0)) := by
  induction l with
  | nil => intro a; simp [jsAdd_zero_right]
  | cons x xs ih =>
      intro a
      simp only [List.foldl_cons]
      rw [ih (jsAdd a (g x)), ih (jsAdd (JsNum.num 0) (g x)), jsAdd_zero_left,
        jsAdd_assoc]

/-- Folding equal functions gives equal results. -/
theorem foldl_congr_fun {α β : Type} (f g : β → α → β)
    (h : ∀ b a, f b a = g b a) (l : List α) (b : β) : l.foldl f b = l.foldl g b := by
  have hfg : f = g := funext fun b0 => funext fun a0 => h b0 a0
  rw [hfg]

theorem totalCpuSum_eq_fold (ns : List Node) :
    totalCpuSum ns = ns.foldl (fun acc n => jsAdd acc (cpuCapOf n)) (.num 0) := by
  unfold totalCpuSum
  apply foldl_congr_fun
  intro acc n
  cases hs : n.status with
  | none => simp [cpuCapOf, hs, jsAdd_zero_right]
  | some st =>
      cases hc : st.capacity with
      | none => simp [cpuCapOf, hs, hc, jsAdd_zero_right]
      | some cap => simp [cpuCapOf, hs, hc]

theorem totalMemSum_eq_fold (ns : List Node) :
    totalMemSum ns = ns.foldl (fun acc n => jsAdd acc (memCapOf n)) (.num 0) := by
  unfold totalMemSum
  apply foldl_congr_fun
  intro acc n
  cases hs : n.status with
  | none => simp [memCapOf, hs, jsAdd_zero_right]
  | some st =>
      cases hc : st.capacity with
      | none => simp [memCapOf, hs, hc, jsAdd_zero_right]
      | some cap => simp [memCapOf, hs, hc]

theorem totalCpuSum_perm {ns₁ ns₂ : List Node} (h : ns₁.Perm ns₂) :
    totalCpuSum ns₁ = totalCpuSum ns₂ := by
  rw [totalCpuSum_eq_fold, totalCpuSum_eq_fold]
  exact foldl_jsAdd_perm cpuCapOf h _

theorem totalMemSum_perm {ns₁ ns₂ : List Node} (h : ns₁.Perm ns₂) :
    totalMemSum ns₁ = totalMemSum ns₂ := by
  rw [totalMemSum_eq_fold, totalMemSum_eq_fold]
  exact foldl_jsAdd_perm memCapOf h _

theorem podCapacitySum_perm {ns₁ ns₂ : List Node} (h : ns₁.Perm ns₂) :
    podCapacitySum ns₁ = podCapacitySum ns₂ := by
  unfold podCapacitySum
  exact foldl_jsAdd_perm _ h _

theorem requestedCpuSum_eq_fold (ps : List Pod) :
    requestedCpuSum ps = ps.foldl (fun acc p => jsAdd acc (podSumOf cpuReqOf p)) (.num 0) := by
  unfold requestedCpuSum
  apply foldl_congr_fun
  intro acc p
  cases hs : p.spec with
  | none => simp [podSumOf, hs, jsAdd_zero_right]
  | some sp =>
      cases hc : sp.containers with
      | none => simp [podSumOf, hs, hc, jsAdd_zero_right]
      | some cs =>
          simp only [podSumOf, hs, hc]
          rw [← foldl_jsAdd_shift]
          apply foldl_congr_fun
          intro b c
          cases hr : c.resources with
          | none => simp [cpuReqOf, hr, jsAdd_zero_right]
          | some r =>
              cases hq : r.requests with
              | none => simp [cpuReqOf, hr, hq, jsAdd_zero_right]
              | some rq => simp [cpuReqOf, hr, hq]

theorem requestedMemSum_eq_fold (ps : List Pod) :
    requestedMemSum ps = ps.foldl (fun acc p => jsAdd acc (podSumOf memReqOf p)) (.num 0) := by
  unfold requestedMemSum
  apply foldl_congr_fun
  intro acc p
  cases hs : p.spec with
  | none => simp [podSumOf, hs, jsAdd_zero_right]
  | some sp =>
      cases hc : sp.containers with
      | none => simp [podSumOf, hs, hc, jsAdd_zero_right]
      | some cs =>
          simp only [podSumOf, hs, hc]
          rw [← foldl_jsAdd_shift]
          apply foldl_congr_fun
          intro b c
          cases hr : c.resources with
          | none => simp [memReqOf, hr, jsAdd_zero_right]
          | some r =>
              cases hq : r.requests with
              | none => simp [memReqOf, hr, hq, jsAdd_zero_right]
              | some rq => simp [memReqOf, hr, hq]

theorem limitCpuSum_eq_fold (ps : List Pod) :
    limitCpuSum ps = ps.foldl (fun acc p => jsAdd acc (podSumOf cpuLimOf p)) (.num 0) := by
  unfold limitCpuSum
  apply foldl_congr_fun
  intro acc p
  cases hs : p.spec with
  | none => simp [podSumOf, hs, jsAdd_zero_right]
  | some sp =>
      cases hc : sp.containers with
      | none => simp [podSumOf, hs, hc, jsAdd_zero_right]
      | some cs =>
          simp only [podSumOf, hs, hc]
          rw [← foldl_jsAdd_shift]
          apply foldl_congr_fun
          intro b c
          cases hr : c.resources with
          | none => simp [cpuLimOf, hr, jsAdd_zero_right]
          | some r =>
              cases hq : r.limits with
              | none => simp [cpuLimOf, hr, hq, jsAdd_zero_right]
              | some lm => simp [cpuLimOf, hr, hq]

theorem limitMemSum_eq_fold (ps : List Pod) :
    limitMemSum ps = ps.foldl (fun acc p => jsAdd acc (podSumOf memLimOf p)) (.num 0) := by
  unfold limitMemSum
  apply foldl_congr_fun
  intro acc p
  cases hs : p.spec with
  | none => simp [podSumOf, hs, jsAdd_zero_right]
  | some sp =>
      cases hc : sp.containers with
      | none => simp [podSumOf, hs, hc, jsAdd_zero_right]
      | some cs =>
          simp only [podSumOf, hs, hc]
          rw [← foldl_jsAdd_shift]
          apply foldl_congr_fun
          intro b c
          cases hr : c.resources with
          | none => simp [memLimOf, hr, jsAdd_zero_right]
          | some r =>
              cases hq : r.limits with
              | none => simp [memLimOf, hr, hq, jsAdd_zero_right]
              | some lm => simp [memLimOf, hr, hq]

theorem requestedCpuSum_perm {ps₁ ps₂ : List Pod} (h : ps₁.Perm ps₂) :
    requestedCpuSum ps₁ = requestedCpuSum ps₂ := by
  rw [requestedCpuSum_eq_fold, requestedCpuSum_eq_fold]
  exact foldl_jsAdd_perm _ h _

theorem requestedMemSum_perm {ps₁ ps₂ : List Pod} (h : ps₁.Perm ps₂) :
    requestedMemSum ps₁ = requestedMemSum ps₂ := by
  rw [requestedMemSum_eq_fold, requestedMemSum_eq_fold]
  exact foldl_jsAdd_perm _ h _

theorem limitCpuSum_perm {ps₁ ps₂ : List Pod} (h : ps₁.Perm ps₂) :
    limitCpuSum ps₁ = limitCpuSum ps₂ := by
  rw [limitCpuSum_eq_fold, limitCpuSum_eq_fold]
  exact foldl_jsAdd_perm _ h _

theorem limitMemSum_perm {ps₁ ps₂ : List Pod} (h : ps₁.Perm ps₂) :
    limitMemSum ps₁ = limitMemSum ps₂ := by
  rw [limitMemSum_eq_fold, limitMemSum_eq_fold]
  exact foldl_jsAdd_perm _ h _

-- ## Character and digit-string lemmas

theorem ne_of_isDigit {c d : Char} (h : c.isDigit = true) (hd : d.isDigit = false) :
    c ≠ d := by
  intro he
  rw [he] at h
  rw [h] at hd
  cases hd

theorem isDigit_not_whitespace {c : Char} (h : c.isDigit = true) :
    c.isWhitespace = false := by
  by_contra hb
  rw [Bool.not_eq_false] at hb
  simp only [Char.isWhitespace, Bool.or_eq_true, decide_eq_true_eq] at hb
  rcases hb with ((hb | hb) | hb) | hb <;> (rw [hb] at h; revert h; decide)

theorem takeDropDigits_append {d u : List Char}
    (hd : ∀ c ∈ d, c.isDigit = true)
    (hu : ∀ c, u.head? = some c → c.isDigit = false) :
    takeDropDigits (d ++ u) = (d, u) := by
  induction d with
  | nil =>
      simp only [List.nil_append]
      cases u with
      | nil => rfl
      | cons c t =>
          have hc := hu c rfl
          simp [takeDropDigits, hc]
  | cons c t ih =>
      have hc : c.isDigit = true := hd c (List.mem_cons_self c t)
      have ht : ∀ x ∈ t, x.isDigit = true := fun x hx => hd x (List.mem_cons_of_mem c hx)
      simp [takeDropDigits, hc, ih ht]

theorem digitsVal_foldl_from (b : List Char) :
    ∀ x : ℕ, b.foldl (fun a c => 10 * a + (c.toNat - 48)) x
      = x * 10 ^ b.length + digitsVal b := by
  induction b with
  | nil => intro x; simp [digitsVal]
  | cons c t ih =>
      intro x
      have hv : digitsVal (c :: t) = (c.toNat - 48) * 10 ^ t.length + digitsVal t := by
        show List.foldl _ (10 * 0 + (c.toNat - 48)) t = _
        rw [ih]
        ring_nf
      simp only [List.foldl_cons, List.length_cons]
      rw [ih, hv]
      ring

theorem digitsVal_append (a b : List Char) :
    digitsVal (a ++ b) = digitsVal a * 10 ^ b.length + digitsVal b := by
  show List.foldl _ 0 (a ++ b) = _
  rw [List.foldl_append]
  exact digitsVal_foldl_from b (digitsVal a)

theorem digitChar_toNat (n : ℕ) : (digitChar n).toNat = 48 + n % 10 := by
  have h : n % 10 < 10 := Nat.mod_lt _ (by omega)
  unfold digitChar
  set m := n % 10 with hm
  interval_cases m <;> decide

theorem digitChar_isDigit (n : ℕ) : (digitChar n).isDigit = true := by
  have h : n % 10 < 10 := Nat.mod_lt _ (by omega)
  unfold digitChar
  set m := n % 10 with hm
  interval_cases m <;> decide

theorem natDigitsF_spec : ∀ fuel n : ℕ, n < fuel →
    digitsVal (natDigitsF fuel n) = n
      ∧ (∀ c ∈ natDigitsF fuel n, c.isDigit = true)
      ∧ natDigitsF fuel n ≠ [] := by
  intro fuel
  induction fuel with
  | zero => intro n hn; omega
  | succ fuel ih =>
      intro n hn
      by_cases h10 : n < 10
      · refine ⟨?_, ?_, ?_⟩
        · have hone : digitsVal [digitChar n] = (digitChar n).toNat - 48 := by
            simp [digitsVal]
          simp only [natDigitsF, h10, if_true]
          rw [hone, digitChar_toNat]
          omega
        · intro c hc
          simp [natDigitsF, h10] at hc
          rw [hc]
          exact digitChar_isDigit n
        · simp [natDigitsF, h10]
      · have hdiv : n / 10 < fuel := by
          have := Nat.div_lt_self (show 0 < n by omega) (show 1 < 10 by omega)
          omega
        obtain ⟨ihv, ihd, ihne⟩ := ih (n / 10) hdiv
        refine ⟨?_, ?_, ?_⟩
        · simp only [natDigitsF, h10, if_false]
          rw [digitsVal_append, ihv]
          have : digitsVal [digitChar (n % 10)] = (digitChar (n % 10)).toNat - 48 := by
            simp [digitsVal]
          rw [this, digitChar_toNat]
          simp
          omega
        · intro c hc
          simp only [natDigitsF, h10, if_false, List.mem_append, List.mem_singleton] at hc
          rcases hc with hc | hc
          · exact ihd c hc
          · rw [hc]; exact digitChar_isDigit _
        · simp [natDigitsF, h10]

theorem headSafeB_head {u : List Char} (hu : headSafeB u = true) :
    ∀ c, u.head? = some c →
      c.isDigit = false ∧ c ≠ '.' ∧ c ≠ 'e' ∧ c ≠ 'E' := by
  intro c hc
  cases u with
  | nil => cases hc
  | cons x t =>
      simp only [List.head?_cons, Option.some.injEq] at hc
      subst hc
      simp only [headSafeB, Bool.and_eq_true, Bool.not_eq_true', beq_eq_false_iff_ne] at hu
      exact ⟨hu.1.1.1, hu.1.1.2, hu.1.2, hu.2⟩

theorem headSafeB_not_digit {u : List Char} (hu : headSafeB u = true) :
    ∀ c, u.head? = some c → c.isDigit = false :=
  fun c hc => (headSafeB_head hu c hc).1

theorem matchQL_numeral (d1 d2 u : List Char) (h1 : d1 ≠ [])
    (hd1 : ∀ c ∈ d1, c.isDigit = true) (hd2 : ∀ c ∈ d2, c.isDigit = true)
    (hu : headSafeB u = true) :
    matchQL (numeralChars d1 d2 ++ u) = some (numeralVal d1 d2, u) := by
  cases d2 with
  | nil =>
      have htd : takeDropDigits (d1 ++ u) = (d1, u) :=
        takeDropDigits_append hd1 (headSafeB_not_digit hu)
      have hdot : u.head? ≠ some '.' := by
        intro hc
        exact (headSafeB_head hu '.' hc).2.1 rfl
      show matchQL (d1 ++ u) = _
      unfold matchQL
      rw [htd]
      rw [if_neg h1, if_neg hdot]
      simp [numeralVal]
  | cons e t =>
      have hne : (e :: t) ≠ ([] : List Char) := by simp
      have hassoc : numeralChars d1 (e :: t) ++ u = d1 ++ ('.' :: (e :: t ++ u)) := by
        simp [numeralChars]
      have htd : takeDropDigits (d1 ++ ('.' :: (e :: t ++ u))) = (d1, '.' :: (e :: t ++ u)) :=
        takeDropDigits_append hd1 (by intro c hc; cases hc; decide)
      have htd2 : takeDropDigits (e :: t ++ u) = (e :: t, u) :=
        takeDropDigits_append hd2 (headSafeB_not_digit hu)
      rw [hassoc]
      unfold matchQL
      rw [htd]
      rw [if_neg h1]
      simp only [List.head?_cons, if_pos rfl, List.tail_cons, htd2]
      rw [if_neg hne]
      simp [numeralVal]

theorem parseSigL_numeral (d1 d2 u : List Char) (h1 : d1 ≠ [])
    (hd1 : ∀ c ∈ d1, c.isDigit = true) (hd2 : ∀ c ∈ d2, c.isDigit = true)
    (hu : headSafeB u = true) :
    parseSigL (numeralChars d1 d2 ++ u) = some (numeralVal d1 d2, u) := by
  cases d2 with
  | nil =>
      have htd : takeDropDigits (d1 ++ u) = (d1, u) :=
        takeDropDigits_append hd1 (headSafeB_not_digit hu)
      have hdot : u.head? ≠ some '.' := by
        intro hc
        exact (headSafeB_head hu '.' hc).2.1 rfl
      show parseSigL (d1 ++ u) = _
      unfold parseSigL
      rw [htd]
      rw [if_neg hdot, if_neg h1]
      simp [numeralVal]
  | cons e t =>
      have hassoc : numeralChars d1 (e :: t) ++ u = d1 ++ ('.' :: (e :: t ++ u)) := by
        simp [numeralChars]
      have htd : takeDropDigits (d1 ++ ('.' :: (e :: t ++ u))) = (d1, '.' :: (e :: t ++ u)) :=
        takeDropDigits_append hd1 (by intro c hc; cases hc; decide)
      have htd2 : takeDropDigits (e :: t ++ u) = (e :: t, u) :=
        takeDropDigits_append hd2 (headSafeB_not_digit hu)
      have hcond : ¬ (d1 = [] ∧ (e :: t : List Char) = []) := by
        intro hcc
        exact h1 hcc.1
      rw [hassoc]
      unfold parseSigL
      rw [htd]
      simp only [List.head?_cons, if_pos rfl, List.tail_cons, htd2]
      rw [if_neg hcond]
      simp [numeralVal]

theorem jsParseFloatL_numeral (d1 d2 u : List Char) (h1 : d1 ≠ [])
    (hd1 : ∀ c ∈ d1, c.isDigit = true) (hd2 : ∀ c ∈ d2, c.isDigit = true)
    (hu : headSafeB u = true) :
    jsParseFloatL (numeralChars d1 d2 ++ u) = .num (numeralVal d1 d2) := by
  obtain ⟨c0, t0, rfl⟩ : ∃ c0 t0, d1 = c0 :: t0 := by
    cases d1 with
    | nil => exact absurd rfl h1
    | cons c0 t0 => exact ⟨c0, t0, rfl⟩
  have hc0 : c0.isDigit = true := hd1 c0 (List.mem_cons_self c0 t0)
  have hcons : ∃ rest, numeralChars (c0 :: t0) d2 ++ u = c0 :: rest := by
    cases d2 with
    | nil => exact ⟨t0 ++ u, by simp [numeralChars]⟩
    | cons e t => exact ⟨(t0 ++ '.' :: (e :: t)) ++ u, by simp [numeralChars]⟩
  obtain ⟨rest, hrest⟩ := hcons
  have hdw : (numeralChars (c0 :: t0) d2 ++ u).dropWhile (fun c => c.isWhitespace)
      = numeralChars (c0 :: t0) d2 ++ u := by
    rw [hrest]
    simp [List.dropWhile, isDigit_not_whitespace hc0]
  have hsign : splitSign (numeralChars (c0 :: t0) d2 ++ u)
      = (false, numeralChars (c0 :: t0) d2 ++ u) := by
    rw [hrest]
    have hm : c0 ≠ '-' := ne_of_isDigit hc0 (by decide)
    have hp : c0 ≠ '+' := ne_of_isDigit hc0 (by decide)
    simp [splitSign, hm, hp]
  have hinf : (numeralChars (c0 :: t0) d2 ++ u).take 8
      ≠ ['I', 'n', 'f', 'i', 'n', 'i', 't', 'y'] := by
    rw [hrest]
    have hI : c0 ≠ 'I' := ne_of_isDigit hc0 (by decide)
    simp [List.take, hI]
  have hexp : parseExpL u = 0 := by
    unfold parseExpL
    cases u with
    | nil => simp
    | cons cu tu =>
        have h3 := headSafeB_head hu cu rfl
        simp [h3.2.2.1, h3.2.2.2]
  unfold jsParseFloatL
  simp only [hdw, hsign]
  rw [if_neg hinf]
  rw [parseSigL_numeral (c0 :: t0) d2 u h1 hd1 hd2 hu]
  simp [hexp]

theorem parseIntDecL_digits (d : List Char) (hne : d ≠ [])
    (hd : ∀ c ∈ d, c.isDigit = true) :
    parseIntDecL d = some (digitsVal d : ℤ) := by
  obtain ⟨c0, t0, rfl⟩ : ∃ c0 t0, d = c0 :: t0 := by
    cases d with
    | nil => exact absurd rfl hne
    | cons c0 t0 => exact ⟨c0, t0, rfl⟩
  have hc0 : c0.isDigit = true := hd c0 (List.mem_cons_self c0 t0)
  have hdw : (c0 :: t0).dropWhile (fun c => c.isWhitespace) = c0 :: t0 := by
    simp [List.dropWhile, isDigit_not_whitespace hc0]
  have hsign : splitSign (c0 :: t0) = (false, c0 :: t0) := by
    have hm : c0 ≠ '-' := ne_of_isDigit hc0 (by decide)
    have hp : c0 ≠ '+' := ne_of_isDigit hc0 (by decide)
    simp [splitSign, hm, hp]
  have htd : takeDropDigits (c0 :: t0 ++ []) = (c0 :: t0, []) :=
    takeDropDigits_append hd (by intro c hc; cases hc)
  rw [List.append_nil] at htd
  unfold parseIntDecL
  simp only [hdw, hsign, htd]
  simp [hne]

-- ## endsWith / dropRight lemmas

theorem endsWithL_append_single (a : List Char) (c c' : Char) :
    endsWithL (a ++ [c]) [c'] = (c' == c) := by
  simp [endsWithL, List.isPrefixOf]

theorem endsWithL_append_pair (a : List Char) (c d c' d' : Char) :
    endsWithL (a ++ [c, d]) [c', d'] = ((d' == d) && (c' == c)) := by
  have h : a ++ [c, d] = (a ++ [c]) ++ [d] := by simp
  rw [h]
  simp [endsWithL, List.isPrefixOf]

theorem endsWithL_pair_of_append_single (a : List Char) (c c' d' : Char) :
    endsWithL (a ++ [c]) [c', d'] = ((d' == c) && endsWithL a [c']) := by
  simp [endsWithL, List.isPrefixOf]

theorem dropRightL_append_single (a : List Char) (c : Char) :
    dropRightL (a ++ [c]) 1 = a := by
  unfold dropRightL
  have h : (a ++ [c]).length - 1 = a.length := by simp
  rw [h, List.take_left]

theorem dropRightL_append_pair (a : List Char) (c d : Char) :
    dropRightL (a ++ [c, d]) 2 = a := by
  unfold dropRightL
  have h : (a ++ [c, d]).length - 2 = a.length := by simp
  rw [h, List.take_left]

-- ## Reduction lemmas for getClusterOverview

theorem getClusterOverview_ok {now : ℤ} {port : ClusterReadPort}
    {ns : List Node} {ps : List Pod} {nss : List NamespaceItem} {ds : List Deployment}
    (hn : port.nodes = .ok ns) (hp : port.pods = .ok ps)
    (hns : port.namespaces = .ok nss) (hd : port.deployments = .ok ds) :
    getClusterOverview now port = .ok (mkOverview now port ns ps nss ds) := by
  unfold getClusterOverview
  rw [hn, hp, hns, hd]

theorem getClusterOverview_isOk_iff (now : ℤ) (port : ClusterReadPort) :
    (getClusterOverview now port).isOk = true
      ↔ (port.nodes.isOk = true ∧ port.pods.isOk = true
          ∧ port.namespaces.isOk = true ∧ port.deployments.isOk = true) := by
  unfold getClusterOverview
  cases hn : port.nodes with
  | error e => simp [Except.isOk, Except.toBool]
  | ok ns =>
      cases hp : port.pods with
      | error e => simp [Except.isOk, Except.toBool]
      | ok ps =>
          cases hns : port.namespaces with
          | error e => simp [Except.isOk, Except.toBool]
          | ok nss =>
              cases hd : port.deployments with
              | error e => simp [Except.isOk, Except.toBool]
              | ok ds => simp [Except.isOk, Except.toBool]

-- ## Behaviour of the source parsers on suffixed numeric strings

theorem jsMul_num (a b : ℚ) : jsMul (.num a) (.num b) = .num (a * b) := rfl

theorem jsDiv_num (a b : ℚ) (hb : b ≠ 0) : jsDiv (.num a) (.num b) = .num (a / b) := by
  simp [jsDiv, hb]

theorem toNanocoresL_m (cs : List Char) (q : ℚ) (h : jsParseFloatL cs = .num q) :
    toNanocoresL (cs ++ ['m']) = .num (q * 1000000) := by
  have hne : cs ++ ['m'] ≠ [] := by simp
  have hm : endsWithL (cs ++ ['m']) ['m'] = true := by
    rw [endsWithL_append_single]; rfl
  unfold toNanocoresL
  rw [if_neg hne, hm, if_pos rfl, dropRightL_append_single, h, jsMul_num]

theorem toNanocoresL_n (cs : List Char) (q : ℚ) (h : jsParseFloatL cs = .num q) :
    toNanocoresL (cs ++ ['n']) = .num q := by
  have hne : cs ++ ['n'] ≠ [] := by simp
  have hm : endsWithL (cs ++ ['n']) ['m'] = false := by
    rw [endsWithL_append_single]; rfl
  have hn : endsWithL (cs ++ ['n']) ['n'] = true := by
    rw [endsWithL_append_single]; rfl
  unfold toNanocoresL
  rw [if_neg hne, hm, if_neg (by simp), hn, if_pos rfl, dropRightL_append_single, h]

theorem toNanocoresL_plain (cs : List Char) (q : ℚ) (hne : cs ≠ [])
    (hm : endsWithL cs ['m'] = false) (hn : endsWithL cs ['n'] = false)
    (h : jsParseFloatL cs = .num q) :
    toNanocoresL cs = .num (q * 1000000000) := by
  unfold toNanocoresL
  rw [if_neg hne, hm, if_neg (by simp), hn, if_neg (by simp), h, jsMul_num]

theorem toKibibytesL_Ki (cs : List Char) (q : ℚ) (h : jsParseFloatL cs = .num q) :
    toKibibytesL (cs ++ ['K', 'i']) = .num q := by
  have hne : cs ++ ['K', 'i'] ≠ [] := by simp
  have hKi : endsWithL (cs ++ ['K', 'i']) ['K', 'i'] = true := by
    rw [endsWithL_append_pair]; rfl
  unfold toKibibytesL
  rw [if_neg hne, hKi, if_pos rfl, dropRightL_append_pair, h]

theorem toKibibytesL_Mi (cs : List Char) (q : ℚ) (h : jsParseFloatL cs = .num q) :
    toKibibytesL (cs ++ ['M', 'i']) = .num (q * 1024) := by
  have hne : cs ++ ['M', 'i'] ≠ [] := by simp
  have hKi : endsWithL (cs ++ ['M', 'i']) ['K', 'i'] = false := by
    rw [endsWithL_append_pair]; rfl
  have hMi : endsWithL (cs ++ ['M', 'i']) ['M', 'i'] = true := by
    rw [endsWithL_append_pair]; rfl
  unfold toKibibytesL
  rw [if_neg hne, hKi, if_neg (by simp), hMi, if_pos rfl, dropRightL_append_pair, h,
    jsMul_num]

theorem toKibibytesL_Gi (cs : List Char) (q : ℚ) (h : jsParseFloatL cs = .num q) :
    toKibibytesL (cs ++ ['G', 'i']) = .num (q * 1024 * 1024) := by
  have hne : cs ++ ['G', 'i'] ≠ [] := by simp
  have hKi : endsWithL (cs ++ ['G', 'i']) ['K', 'i'] = false := by
    rw [endsWithL_append_pair]; rfl
  have hMi : endsWithL (cs ++ ['G', 'i']) ['M', 'i'] = false := by
    rw [endsWithL_append_pair]; rfl
  have hGi : endsWithL (cs ++ ['G', 'i']) ['G', 'i'] = true := by
    rw [endsWithL_append_pair]; rfl
  unfold toKibibytesL
  rw [if_neg hne, hKi, if_neg (by simp), hMi, if_neg (by simp), hGi, if_pos rfl,
    dropRightL_append_pair, h, jsMul_num, jsMul_num]

theorem toKibibytesL_Ti (cs : List Char) (q : ℚ) (h : jsParseFloatL cs = .num q) :
    toKibibytesL (cs ++ ['T', 'i']) = .num (q * 1024 * 1024 * 1024) := by
  have hne : cs ++ ['T', 'i'] ≠ [] := by simp
  have hKi : endsWithL (cs ++ ['T', 'i']) ['K', 'i'] = false := by
    rw [endsWithL_append_pair]; rfl
  have hMi : endsWithL (cs ++ ['T', 'i']) ['M', 'i'] = false := by
    rw [endsWithL_append_pair]; rfl
  have hGi : endsWithL (cs ++ ['T', 'i']) ['G', 'i'] = false := by
    rw [endsWithL_append_pair]; rfl
  have hTi : endsWithL (cs ++ ['T', 'i']) ['T', 'i'] = true := by
    rw [endsWithL_append_pair]; rfl
  unfold toKibibytesL
  rw [if_neg hne, hKi, if_neg (by simp), hMi, if_neg (by simp), hGi, if_neg (by simp),
    hTi, if_pos rfl, dropRightL_append_pair, h, jsMul_num, jsMul_num, jsMul_num]

theorem toKibibytesL_fallback (cs : List Char) (q : ℚ) (hne : cs ≠ [])
    (hKi : endsWithL cs ['K', 'i'] = false) (hMi : endsWithL cs ['M', 'i'] = false)
    (hGi : endsWithL cs ['G', 'i'] = false) (hTi : endsWithL cs ['T', 'i'] = false)
    (h : jsParseFloatL cs = .num q) :
    toKibibytesL cs = .num (q / 1024) := by
  unfold toKibibytesL
  rw [if_neg hne, hKi, if_neg (by simp), hMi, if_neg (by simp), hGi, if_neg (by simp),
    hTi, if_neg (by simp), h, jsDiv_num _ _ (by norm_num)]

-- ## Round-trip support lemmas

theorem pad2_digits (m : ℕ) : ∀ c ∈ pad2 m, c.isDigit = true := by
  intro c hc
  simp only [pad2, List.mem_cons, List.mem_singleton] at hc
  rcases hc with hc | hc | hc
  · rw [hc]; exact digitChar_isDigit _
  · rw [hc]; exact digitChar_isDigit _
  · cases hc

theorem digitsVal_pad2 (m : ℕ) (h : m < 100) : digitsVal (pad2 m) = m := by
  have h1 : digitsVal (pad2 m)
      = ((digitChar (m / 10)).toNat - 48) * 10 + ((digitChar m).toNat - 48) := by
    have := digitsVal_append [digitChar (m / 10)] [digitChar m]
    simp only [pad2]
    show digitsVal ([digitChar (m / 10)] ++ [digitChar m]) = _
    rw [this]
    simp [digitsVal]
  rw [h1, digitChar_toNat, digitChar_toNat]
  omega

theorem natDigits_spec (m : ℕ) :
    digitsVal (natDigits m) = m
      ∧ (∀ c ∈ natDigits m, c.isDigit = true)
      ∧ natDigits m ≠ [] := by
  obtain ⟨hval, hdig, hne⟩ := natDigitsF_spec (m + 1) m (by omega)
  exact ⟨hval, hdig, hne⟩

theorem jsParseFloatL_toFixed2Core (q : ℚ) :
    jsParseFloatL (toFixed2Core q)
      = .num (((⌊q * 100 + 1 / 2⌋).toNat : ℚ) / 100) := by
  have hpadne : pad2 ((⌊q * 100 + 1 / 2⌋).toNat % 100) ≠ [] := by simp [pad2]
  have hcore : toFixed2Core q
      = numeralChars (natDigits ((⌊q * 100 + 1 / 2⌋).toNat / 100))
          (pad2 ((⌊q * 100 + 1 / 2⌋).toNat % 100)) ++ [] := by
    simp only [toFixed2Core, numeralChars, if_neg hpadne, List.append_nil]
  obtain ⟨hval, hdig, hne⟩ := natDigits_spec ((⌊q * 100 + 1 / 2⌋).toNat / 100)
  rw [hcore, jsParseFloatL_numeral _ _ [] hne hdig (pad2_digits _) rfl]
  have hv : numeralVal (natDigits ((⌊q * 100 + 1 / 2⌋).toNat / 100))
      (pad2 ((⌊q * 100 + 1 / 2⌋).toNat % 100))
      = (((⌊q * 100 + 1 / 2⌋).toNat : ℕ) : ℚ) / 100 := by
    unfold numeralVal
    rw [digitsVal_append, hval, digitsVal_pad2 _ (by omega)]
    have hlen : (pad2 ((⌊q * 100 + 1 / 2⌋).toNat % 100)).length = 2 := by simp [pad2]
    rw [hlen]
    have heq : ((⌊q * 100 + 1 / 2⌋).toNat / 100) * 10 ^ 2
        + (⌊q * 100 + 1 / 2⌋).toNat % 100 = (⌊q * 100 + 1 / 2⌋).toNat := by omega
    rw [heq]
    norm_num
  rw [hv]

theorem parseIntDecL_natDigits (m : ℕ) :
    parseIntDecL (natDigits m) = some (m : ℤ) := by
  obtain ⟨hval, hdig, hne⟩ := natDigits_spec m
  have h := parseIntDecL_digits (natDigits m) hne hdig
  rw [h, hval]

theorem abs_floor_round (x : ℚ) : |(⌊x + 1 / 2⌋ : ℚ) - x| ≤ 1 / 2 := by
  rw [abs_le]
  constructor
  · have h := Int.lt_floor_add_one (x + 1 / 2)
    linarith
  · have h := Int.floor_le (x + 1 / 2)
    linarith

theorem stripTrailingN_append_n (cs : List Char) :
    stripTrailingN (cs ++ ['n']) = cs := by
  unfold stripTrailingN
  rw [endsWithL_append_single]
  simp [dropRightL_append_single]

theorem toFixed2Core_ends_not (q : ℚ) (c : Char) (hc : c.isDigit = false) :
    endsWithL (toFixed2Core q) [c] = false := by
  have hsplit : toFixed2Core q
      = (natDigits ((⌊q * 100 + 1 / 2⌋).toNat / 100)
          ++ ['.', digitChar ((⌊q * 100 + 1 / 2⌋).toNat % 100 / 10)])
        ++ [digitChar ((⌊q * 100 + 1 / 2⌋).toNat % 100)] := by
    simp [toFixed2Core, pad2]
  rw [hsplit, endsWithL_append_single]
  have hne : c ≠ digitChar ((⌊q * 100 + 1 / 2⌋).toNat % 100) :=
    fun he => (ne_of_isDigit (digitChar_isDigit _) hc) he.symm
  exact beq_eq_false_iff_ne.mpr hne

theorem toFixed2Core_ne_nil (q : ℚ) : toFixed2Core q ≠ [] := by
  obtain ⟨_, _, hne⟩ := natDigitsF_spec ((⌊q * 100 + 1 / 2⌋).toNat / 100 + 1)
    ((⌊q * 100 + 1 / 2⌋).toNat / 100) (by omega)
  simp only [toFixed2Core]
  intro h
  rw [List.append_eq_nil] at h
  exact hne (by simpa [natDigits] using h.1)

-- ## Event-counter lemmas

theorem analyzeStep_shift (now : ℤ) (w r : ℕ) (e : Event) :
    analyzeStep now (w, r) e
      = (w + (analyzeStep now (0, 0) e).1, r + (analyzeStep now (0, 0) e).2) := by
  unfold analyzeStep
  cases ht : eventTimeOf e with
  | none => simp
  | some t =>
      by_cases hrec : now - 3600000 < t
      · simp only [hrec, if_true]
        rw [Prod.mk.injEq]
        constructor <;> (split <;> simp)
      · simp [hrec]

theorem analyzeEvents_shift (now : ℤ) (es : List Event) :
    ∀ w r : ℕ, es.foldl (analyzeStep now) (w, r)
      = (w + (analyzeEvents now es).1, r + (analyzeEvents now es).2) := by
  induction es with
  | nil => intro w r; simp [analyzeEvents]
  | cons e t ih =>
      intro w r
      show List.foldl (analyzeStep now) (analyzeStep now (w, r) e) t = _
      rw [analyzeStep_shift]
      rw [ih]
      have hconv : analyzeEvents now (e :: t)
          = List.foldl (analyzeStep now) (analyzeStep now (0, 0) e) t := rfl
      rw [hconv, analyzeStep_shift now 0 0 e, ih]
      simp only [Nat.zero_add]
      rw [Prod.mk.injEq]
      constructor <;> omega


-- ## Last helper lemmas

theorem getClusterOverview_ok_inv {now : ℤ} {port : ClusterReadPort} {o : Overview}
    (h : getClusterOverview now port = .ok o) :
    ∃ ns ps nss ds, port.nodes = .ok ns ∧ port.pods = .ok ps
      ∧ port.namespaces = .ok nss ∧ port.deployments = .ok ds
      ∧ o = mkOverview now port ns ps nss ds := by
  unfold getClusterOverview at h
  cases hn : port.nodes with
  | error e => rw [hn] at h; simp at h
  | ok ns =>
      rw [hn] at h
      cases hp : port.pods with
      | error e => rw [hp] at h; simp at h
      | ok ps =>
          rw [hp] at h
          cases hnss : port.namespaces with
          | error e => rw [hnss] at h; simp at h
          | ok nss =>
              rw [hnss] at h
              cases hd : port.deployments with
              | error e => rw [hd] at h; simp at h
              | ok ds =>
                  rw [hd] at h
                  simp only [Except.ok.injEq] at h
                  exact ⟨ns, ps, nss, ds, rfl, rfl, rfl, rfl, h.symm⟩

theorem jsParseFloatL_numeral_nil (d1 d2 : List Char) (h1 : d1 ≠ [])
    (hd1 : ∀ c ∈ d1, c.isDigit = true) (hd2 : ∀ c ∈ d2, c.isDigit = true) :
    jsParseFloatL (numeralChars d1 d2) = .num (numeralVal d1 d2) := by
  have h := jsParseFloatL_numeral d1 d2 [] h1 hd1 hd2 rfl
  rwa [List.append_nil] at h

theorem numeralChars_ends_not (d1 d2 : List Char) (h1 : d1 ≠ [])
    (hd1 : ∀ c ∈ d1, c.isDigit = true) (hd2 : ∀ c ∈ d2, c.isDigit = true)
    (c1 c2 : Char) (hc2 : c2.isDigit = false) :
    endsWithL (numeralChars d1 d2) [c1, c2] = false := by
  cases d2 with
  | nil =>
      rcases (List.eq_nil_or_concat d1) with hcon | ⟨L, b, hcon⟩
      · exact absurd hcon h1
      · have hb : b.isDigit = true := hd1 b (by rw [hcon]; simp)
        have hne : c2 ≠ b := fun he => (ne_of_isDigit hb hc2) he.symm
        rw [show numeralChars d1 [] = d1 by simp [numeralChars], hcon,
          List.concat_eq_append, endsWithL_pair_of_append_single]
        simp [beq_eq_false_iff_ne.mpr hne]
  | cons e t =>
      rcases (List.eq_nil_or_concat (e :: t)) with hcon | ⟨L, b, hcon⟩
      · cases hcon
      · have hb : b.isDigit = true := hd2 b (by rw [hcon]; simp)
        have hne : c2 ≠ b := fun he => (ne_of_isDigit hb hc2) he.symm
        have hre : numeralChars d1 (e :: t) = (d1 ++ '.' :: L) ++ [b] := by
          simp [numeralChars, hcon, List.concat_eq_append]
        rw [hre, endsWithL_pair_of_append_single]
        simp [beq_eq_false_iff_ne.mpr hne]

theorem abs_toNat_floor_round (x : ℚ) (hx : 0 ≤ x) :
    |(((⌊x + 1 / 2⌋).toNat : ℕ) : ℚ) - x| ≤ 1 / 2 := by
  have h0 : (0 : ℤ) ≤ ⌊x + 1 / 2⌋ := Int.floor_nonneg.mpr (by linarith)
  have hcast : (((⌊x + 1 / 2⌋).toNat : ℕ) : ℚ) = ((⌊x + 1 / 2⌋ : ℤ) : ℚ) := by
    exact_mod_cast congrArg (fun z : ℤ => (z : ℚ)) (Int.toNat_of_nonneg h0)
  rw [hcast]
  exact abs_floor_round x

-- ## Claim theorems

set_option maxRecDepth 100000

section ClaimProofs

attribute [local semireducible] Rat.mul Rat.add Rat.sub Rat.inv Rat.ofScientific

/-- C2, counterexample: the claim says any malformed input yields the zero
quantity, but the CPU parser `toNanocores` (and `toKibibytes`) return NaN on
a non-numeric leading portion: `toNanocores "abc"` is NaN, not the zero
quantity. -/
theorem claim_C2_counterexample :
    toNanocores "abc" = JsNum.nan ∧ JsNum.nan ≠ JsNum.num 0
      ∧ toKibibytes "abc" = JsNum.nan := by
  refine ⟨by decide, by decide, by decide⟩

/-- C2, amended: the quantity parsers are total (they are functions in this
model and JavaScript `parseFloat` never throws); `memoryToBytes` yields the
zero quantity whenever its regex match fails; but `toNanocores` and
`toKibibytes` yield NaN (not zero) when the selected numeric portion has no
numeric prefix. -/
theorem claim_C2_amended :
    (∀ s : String, matchQL s.data = none → memoryToBytes s = 0)
      ∧ (∀ s : String, s.data ≠ [] → jsParseFloatL s.data = .nan →
          jsParseFloatL (dropRightL s.data 1) = .nan → toNanocores s = .nan)
      ∧ (∀ s : String, s.data ≠ [] → jsParseFloatL s.data = .nan →
          jsParseFloatL (dropRightL s.data 1) = .nan →
          jsParseFloatL (dropRightL s.data 2) = .nan → toKibibytes s = .nan) := by
  refine ⟨?_, ?_, ?_⟩
  · intro s h
    unfold memoryToBytes memoryToBytesL
    rw [h]
  · intro s hne h1 h2
    unfold toNanocores toNanocoresL
    rw [if_neg hne]
    split_ifs <;> simp [h1, h2, jsMul]
  · intro s hne h1 h2 h3
    unfold toKibibytes toKibibytesL
    rw [if_neg hne]
    split_ifs <;> simp [h1, h2, h3, jsMul, jsDiv]

/-- C2, witness: the amended theorem applied at the concrete malformed
input "abc". -/
theorem claim_C2_witness :
    matchQL ("abc".data) = none ∧ memoryToBytes "abc" = 0
      ∧ "abc".data ≠ [] ∧ jsParseFloatL ("abc".data) = JsNum.nan
      ∧ jsParseFloatL (dropRightL ("abc".data) 1) = JsNum.nan
      ∧ toNanocores "abc" = JsNum.nan :=
  ⟨by decide, claim_C2_amended.1 "abc" (by decide), by decide, by decide, by decide,
    claim_C2_amended.2.1 "abc" (by decide) (by decide) (by decide)⟩

/-- C3, counterexample: the claim says the decimal family K/M/G/T/P is
parsed as powers of 1000 with the result in the kibibyte base unit, but the
kibibyte-normalizing parser `toKibibytes` does not recognize the decimal
family at all: "1K" falls through to the assume-bytes branch and yields
1/1024 Ki instead of the claimed 1000/1024 Ki. -/
theorem claim_C3_counterexample :
    toKibibytes "1K" = JsNum.num (1 / 1024) ∧ (1 : ℚ) / 1024 ≠ 1000 / 1024 := by
  refine ⟨by decide, by decide⟩

/-- C3, amended: the suffix families hold for `memoryToBytes`, which matches
the unit token case-insensitively, applies the binary family as powers of
1024 and the decimal family as powers of 1000, treats no suffix as raw
bytes, but normalizes to BYTES (not kibibytes); `toKibibytes`, the only
parser normalizing to the kibibyte base unit, supports only the
case-sensitive binary suffixes Ki/Mi/Gi/Ti and treats every other suffix
(decimal family, Pi, other letter case) and unsuffixed input through the
assume-bytes fallback (leading number divided by 1024). -/
theorem claim_C3_amended (d1 d2 u : List Char) (h1 : d1 ≠ [])
    (hd1 : ∀ c ∈ d1, c.isDigit = true) (hd2 : ∀ c ∈ d2, c.isDigit = true)
    (hu : headSafeB u = true) :
    ((toLowerL u = ['k', 'i'] →
        memoryToBytes ⟨numeralChars d1 d2 ++ u⟩ = numeralVal d1 d2 * 1024)
      ∧ (toLowerL u = ['m', 'i'] →
          memoryToBytes ⟨numeralChars d1 d2 ++ u⟩ = numeralVal d1 d2 * 1024 ^ 2)
      ∧ (toLowerL u = ['g', 'i'] →
          memoryToBytes ⟨numeralChars d1 d2 ++ u⟩ = numeralVal d1 d2 * 1024 ^ 3)
      ∧ (toLowerL u = ['t', 'i'] →
          memoryToBytes ⟨numeralChars d1 d2 ++ u⟩ = numeralVal d1 d2 * 1024 ^ 4)
      ∧ (toLowerL u = ['p', 'i'] →
          memoryToBytes ⟨numeralChars d1 d2 ++ u⟩ = numeralVal d1 d2 * 1024 ^ 5)
      ∧ (toLowerL u = ['k'] →
          memoryToBytes ⟨numeralChars d1 d2 ++ u⟩ = numeralVal d1 d2 * 1000)
      ∧ (toLowerL u = ['m'] →
          memoryToBytes ⟨numeralChars d1 d2 ++ u⟩ = numeralVal d1 d2 * 1000 ^ 2)
      ∧ (toLowerL u = ['g'] →
          memoryToBytes ⟨numeralChars d1 d2 ++ u⟩ = numeralVal d1 d2 * 1000 ^ 3)
      ∧ (toLowerL u = ['t'] →
          memoryToBytes ⟨numeralChars d1 d2 ++ u⟩ = numeralVal d1 d2 * 1000 ^ 4)
      ∧ (toLowerL u = ['p'] →
          memoryToBytes ⟨numeralChars d1 d2 ++ u⟩ = numeralVal d1 d2 * 1000 ^ 5)
      ∧ (u = [] → memoryToBytes ⟨numeralChars d1 d2⟩ = numeralVal d1 d2))
    ∧ (toKibibytes ⟨numeralChars d1 d2 ++ ['K', 'i']⟩ = .num (numeralVal d1 d2)
      ∧ toKibibytes ⟨numeralChars d1 d2 ++ ['M', 'i']⟩ = .num (numeralVal d1 d2 * 1024)
      ∧ toKibibytes ⟨numeralChars d1 d2 ++ ['G', 'i']⟩
          = .num (numeralVal d1 d2 * 1024 * 1024)
      ∧ toKibibytes ⟨numeralChars d1 d2 ++ ['T', 'i']⟩
          = .num (numeralVal d1 d2 * 1024 * 1024 * 1024)
      ∧ toKibibytes ⟨numeralChars d1 d2 ++ ['K']⟩ = .num (numeralVal d1 d2 / 1024)
      ∧ toKibibytes ⟨numeralChars d1 d2 ++ ['P', 'i']⟩ = .num (numeralVal d1 d2 / 1024)
      ∧ toKibibytes ⟨numeralChars d1 d2 ++ ['k', 'i']⟩ = .num (numeralVal d1 d2 / 1024)
      ∧ toKibibytes ⟨numeralChars d1 d2⟩ = .num (numeralVal d1 d2 / 1024)) := by
  have hmb : memoryToBytes ⟨numeralChars d1 d2 ++ u⟩
      = numeralVal d1 d2 * unitMul (toLowerL u) := by
    show memoryToBytesL (numeralChars d1 d2 ++ u) = _
    unfold memoryToBytesL
    rw [matchQL_numeral d1 d2 u h1 hd1 hd2 hu]
  have hpf : jsParseFloatL (numeralChars d1 d2) = .num (numeralVal d1 d2) :=
    jsParseFloatL_numeral_nil d1 d2 h1 hd1 hd2
  have hnume : numeralChars d1 d2 ≠ [] := by
    cases d2 with
    | nil => simpa [numeralChars] using h1
    | cons e t => simp [numeralChars]
  constructor
  · refine ⟨fun hlu => ?_, fun hlu => ?_, fun hlu => ?_, fun hlu => ?_, fun hlu => ?_,
      fun hlu => ?_, fun hlu => ?_, fun hlu => ?_, fun hlu => ?_, fun hlu => ?_,
      fun hnil => ?_⟩
    · rw [hmb, hlu, show unitMul ['k', 'i'] = (1024 : ℚ) from by decide]
    · rw [hmb, hlu, show unitMul ['m', 'i'] = (1024 : ℚ) ^ 2 from by decide]
    · rw [hmb, hlu, show unitMul ['g', 'i'] = (1024 : ℚ) ^ 3 from by decide]
    · rw [hmb, hlu, show unitMul ['t', 'i'] = (1024 : ℚ) ^ 4 from by decide]
    · rw [hmb, hlu, show unitMul ['p', 'i'] = (1024 : ℚ) ^ 5 from by decide]
    · rw [hmb, hlu, show unitMul ['k'] = (1000 : ℚ) from by decide]
    · rw [hmb, hlu, show unitMul ['m'] = (1000 : ℚ) ^ 2 from by decide]
    · rw [hmb, hlu, show unitMul ['g'] = (1000 : ℚ) ^ 3 from by decide]
    · rw [hmb, hlu, show unitMul ['t'] = (1000 : ℚ) ^ 4 from by decide]
    · rw [hmb, hlu, show unitMul ['p'] = (1000 : ℚ) ^ 5 from by decide]
    · have hx := hmb
      rw [hnil, List.append_nil] at hx
      rw [hx, show unitMul (toLowerL []) = 1 from by decide, mul_one]
  · refine ⟨?_, ?_, ?_, ?_, ?_, ?_, ?_, ?_⟩
    · exact toKibibytesL_Ki _ _ hpf
    · exact toKibibytesL_Mi _ _ hpf
    · exact toKibibytesL_Gi _ _ hpf
    · exact toKibibytesL_Ti _ _ hpf
    · refine toKibibytesL_fallback _ _ (by simp) ?_ ?_ ?_ ?_ ?_
      · rw [endsWithL_pair_of_append_single]; simp
      · rw [endsWithL_pair_of_append_single]; simp
      · rw [endsWithL_pair_of_append_single]; simp
      · rw [endsWithL_pair_of_append_single]; simp
      · exact jsParseFloatL_numeral d1 d2 ['K'] h1 hd1 hd2 (by decide)
    · refine toKibibytesL_fallback _ _ (by simp) ?_ ?_ ?_ ?_ ?_
      · rw [endsWithL_append_pair]; simp
      · rw [endsWithL_append_pair]; simp
      · rw [endsWithL_append_pair]; simp
      · rw [endsWithL_append_pair]; simp
      · exact jsParseFloatL_numeral d1 d2 ['P', 'i'] h1 hd1 hd2 (by decide)
    · refine toKibibytesL_fallback _ _ (by simp) ?_ ?_ ?_ ?_ ?_
      · rw [endsWithL_append_pair]; simp
      · rw [endsWithL_append_pair]; simp
      · rw [endsWithL_append_pair]; simp
      · rw [endsWithL_append_pair]; simp
      · exact jsParseFloatL_numeral d1 d2 ['k', 'i'] h1 hd1 hd2 (by decide)
    · refine toKibibytesL_fallback _ _ hnume ?_ ?_ ?_ ?_ hpf
      · exact numeralChars_ends_not d1 d2 h1 hd1 hd2 'K' 'i' (by decide)
      · exact numeralChars_ends_not d1 d2 h1 hd1 hd2 'M' 'i' (by decide)
      · exact numeralChars_ends_not d1 d2 h1 hd1 hd2 'G' 'i' (by decide)
      · exact numeralChars_ends_not d1 d2 h1 hd1 hd2 'T' 'i' (by decide)

/-- C3, witness: the amended theorem at the numeral "5" with suffixes, e.g.
the case-insensitive decimal and binary families of `memoryToBytes` and the
binary suffixes of `toKibibytes`. -/
theorem claim_C3_witness :
    memoryToBytes ⟨numeralChars ['5'] [] ++ ['G', 'i']⟩ = numeralVal ['5'] [] * 1024 ^ 3
      ∧ memoryToBytes ⟨numeralChars ['5'] [] ++ ['K']⟩ = numeralVal ['5'] [] * 1000
      ∧ toKibibytes ⟨numeralChars ['5'] [] ++ ['M', 'i']⟩
          = .num (numeralVal ['5'] [] * 1024) := by
  have h := claim_C3_amended ['5'] [] ['G', 'i'] (by decide) (by decide) (by decide)
    (by decide)
  have h2 := claim_C3_amended ['5'] [] ['K'] (by decide) (by decide) (by decide)
    (by decide)
  exact ⟨h.1.2.2.1 (by decide), h2.1.2.2.2.2.2.1 (by decide), h.2.2.1⟩

/-- C4, confirmed: for every CPU string whose numeric portion parses to the
non-negative rational q, the nanocore parser `toNanocores` multiplies an
`m`-suffixed value by 10^6, an `n`-suffixed value by 1, and an unsuffixed
value by 10^9. (Every well-formed non-negative decimal with optional suffix
is of this shape; `jsParseFloatL` is the model of the `parseFloat` call the
parser itself makes.) -/
theorem claim_C4 (s : String) (q : ℚ) (h : jsParseFloatL s.data = .num q) :
    toNanocores ⟨s.data ++ ['m']⟩ = .num (q * 1000000)
      ∧ toNanocores ⟨s.data ++ ['n']⟩ = .num q
      ∧ (s.data ≠ [] → endsWithL s.data ['m'] = false → endsWithL s.data ['n'] = false →
          toNanocores s = .num (q * 1000000000)) := by
  refine ⟨?_, ?_, fun hne hm hn => ?_⟩
  · exact toNanocoresL_m s.data q h
  · exact toNanocoresL_n s.data q h
  · exact toNanocoresL_plain s.data q hne hm hn h

/-- C4, witness: the theorem applied at the numeric portion "2.5". -/
theorem claim_C4_witness :
    jsParseFloatL ("2.5".data) = JsNum.num (5 / 2)
      ∧ toNanocores ⟨"2.5".data ++ ['m']⟩ = JsNum.num (5 / 2 * 1000000)
      ∧ toNanocores ⟨"2.5".data ++ ['n']⟩ = JsNum.num (5 / 2)
      ∧ toNanocores "2.5" = JsNum.num (5 / 2 * 1000000000) :=
  ⟨by decide, (claim_C4 "2.5" (5 / 2) (by decide)).1,
    (claim_C4 "2.5" (5 / 2) (by decide)).2.1,
    (claim_C4 "2.5" (5 / 2) (by decide)).2.2 (by decide) (by decide) (by decide)⟩

/-- C6, confirmed: the percentage calculators return used/total*100 for a
non-zero total and 0 for a zero total (or an unparseable used value), never
raising and never producing NaN or Infinity (their results are plain
rationals); they are not clamped at 100: equal non-zero used and total give
exactly 100, and an over-provisioned pair gives 200. -/
theorem claim_C6 :
    (∀ (s : String) (t : ℚ) (n : ℤ), parseIntDecL (stripTrailingN s.data) = some n →
        (t = 0 → getCPUPercentage s t = 0)
          ∧ (t ≠ 0 → getCPUPercentage s t = (n : ℚ) / 1000000000 / t * 100))
      ∧ (∀ (s : String) (t : ℚ), parseIntDecL (stripTrailingN s.data) = none →
          getCPUPercentage s t = 0)
      ∧ (∀ u tot : String, memoryToBytes tot = 0 → getMemoryPercentage u tot = 0)
      ∧ (∀ u tot : String, memoryToBytes tot ≠ 0 →
          getMemoryPercentage u tot = memoryToBytes u / memoryToBytes tot * 100)
      ∧ (∀ s : String, memoryToBytes s ≠ 0 → getMemoryPercentage s s = 100)
      ∧ (∀ (s : String) (t : ℚ) (n : ℤ), parseIntDecL (stripTrailingN s.data) = some n →
          t ≠ 0 → (n : ℚ) = t * 1000000000 → getCPUPercentage s t = 100)
      ∧ getMemoryPercentage "0Ki" "0Ki" = 0
      ∧ getMemoryPercentage "2048Ki" "1024Ki" = 200 := by
  refine ⟨?_, ?_, ?_, ?_, ?_, ?_, by decide, by decide⟩
  · intro s t n h
    constructor
    · intro ht
      unfold getCPUPercentage
      simp only [h]
      rw [if_pos ht]
    · intro ht
      unfold getCPUPercentage
      simp only [h]
      rw [if_neg ht]
  · intro s t h
    unfold getCPUPercentage
    rw [h]
  · intro u tot h
    unfold getMemoryPercentage
    rw [if_pos h]
  · intro u tot h
    unfold getMemoryPercentage
    rw [if_neg h]
  · intro s h
    unfold getMemoryPercentage
    rw [if_neg h]
    field_simp
  · intro s t n h ht hn
    unfold getCPUPercentage
    simp only [h]
    rw [if_neg ht, hn]
    field_simp

/-- C6, witness: the theorem applied at concrete pairs, including the
spec's boundary cases percentage(0,0) = 0 and percentage(X,X) = 100. -/
theorem claim_C6_witness :
    parseIntDecL (stripTrailingN ("2000000000n".data)) = some 2000000000
      ∧ getCPUPercentage "2000000000n" 2 = 100
      ∧ memoryToBytes "5Gi" ≠ 0
      ∧ getMemoryPercentage "5Gi" "5Gi" = 100 :=
  ⟨by decide,
    claim_C6.2.2.2.2.2.1 "2000000000n" 2 2000000000 (by decide) (by norm_num)
      (by norm_num),
    by decide,
    claim_C6.2.2.2.2.1 "5Gi" (by decide)⟩

/-- C7, confirmed: `formatCPU` renders a parsed nanocore value below 1000
millicores as millicores with two `toFixed(2)` decimals and an `m` suffix,
and any other value as whole cores with two decimals and no suffix (NaN
renders as "0"); `formatMemory` converts the input through its unit
multiplier to bytes and then picks the display unit by the binary ladder —
bytes below 1024 render as `B` with zero decimals, and otherwise the
largest of KiB/MiB/GiB/TiB whose scaled value is at least 1 is used with
two decimals, regardless of whether the input carried a decimal suffix. -/
theorem claim_C7 :
    (∀ (s : String) (n : ℤ), parseIntDecL (stripTrailingN s.data) = some n →
        ((n : ℚ) / 1000000 < 1000 →
            formatCPU s = ⟨toFixed2L ((n : ℚ) / 1000000) ++ ['m']⟩)
          ∧ (¬ (n : ℚ) / 1000000 < 1000 →
              formatCPU s = ⟨toFixed2L ((n : ℚ) / 1000000 / 1000)⟩))
      ∧ (∀ s : String, parseIntDecL (stripTrailingN s.data) = none → formatCPU s = "0")
      ∧ (∀ (s : String) (v : ℚ) (u : List Char), matchQL s.data = some (v, u) →
          ((1024 : ℚ) ^ 4 ≤ v * unitMul (toLowerL u) →
              formatMemory s
                = ⟨toFixed2L (v * unitMul (toLowerL u) / 1024 ^ 4) ++ " TiB".data⟩)
            ∧ ((1024 : ℚ) ^ 3 ≤ v * unitMul (toLowerL u)
                  → v * unitMul (toLowerL u) < 1024 ^ 4 →
                formatMemory s
                  = ⟨toFixed2L (v * unitMul (toLowerL u) / 1024 ^ 3) ++ " GiB".data⟩)
            ∧ ((1024 : ℚ) ^ 2 ≤ v * unitMul (toLowerL u)
                  → v * unitMul (toLowerL u) < 1024 ^ 3 →
                formatMemory s
                  = ⟨toFixed2L (v * unitMul (toLowerL u) / 1024 ^ 2) ++ " MiB".data⟩)
            ∧ ((1024 : ℚ) ≤ v * unitMul (toLowerL u)
                  → v * unitMul (toLowerL u) < 1024 ^ 2 →
                formatMemory s
                  = ⟨toFixed2L (v * unitMul (toLowerL u) / 1024) ++ " KiB".data⟩)
            ∧ (v * unitMul (toLowerL u) < 1024 →
                formatMemory s = ⟨toFixed0L (v * unitMul (toLowerL u)) ++ " B".data⟩))
      ∧ (∀ s : String, matchQL s.data = none → formatMemory s = "0 B") := by
  refine ⟨?_, ?_, ?_, ?_⟩
  · intro s n h
    constructor
    · intro hlt
      unfold formatCPU formatCPUL
      simp only [h]
      rw [if_pos hlt]
    · intro hge
      unfold formatCPU formatCPUL
      simp only [h]
      rw [if_neg hge]
  · intro s h
    unfold formatCPU formatCPUL
    simp only [h]
  · intro s v u h
    refine ⟨fun h4 => ?_, fun h3 hl4 => ?_, fun h2 hl3 => ?_, fun h1 hl2 => ?_,
      fun hl1 => ?_⟩
    · unfold formatMemory formatMemoryL
      simp only [h]
      rw [if_pos h4]
    · unfold formatMemory formatMemoryL
      simp only [h]
      rw [if_neg (not_le.mpr hl4), if_pos h3]
    · unfold formatMemory formatMemoryL
      simp only [h]
      rw [if_neg (not_le.mpr (lt_trans hl3 (by norm_num))),
        if_neg (not_le.mpr hl3), if_pos h2]
    · unfold formatMemory formatMemoryL
      simp only [h]
      rw [if_neg (not_le.mpr (lt_trans hl2 (by norm_num))),
        if_neg (not_le.mpr (lt_trans hl2 (by norm_num))), if_neg (not_le.mpr hl2),
        if_pos h1]
    · unfold formatMemory formatMemoryL
      simp only [h]
      rw [if_neg (not_le.mpr (lt_trans hl1 (by norm_num))),
        if_neg (not_le.mpr (lt_trans hl1 (by norm_num))),
        if_neg (not_le.mpr (lt_trans hl1 (by norm_num))), if_neg (not_le.mpr hl1)]
  · intro s h
    unfold formatMemory formatMemoryL
    simp only [h]

/-- C7, witness: the theorem applied at the spec's own examples:
`formatCPU "32859908n"` renders in millicores and `formatMemory "1847100Ki"`
selects GiB; evaluating the rendering gives "32.86m" and "1.76 GiB". -/
theorem claim_C7_witness :
    parseIntDecL (stripTrailingN ("32859908n".data)) = some 32859908
      ∧ formatCPU "32859908n" = ⟨toFixed2L ((32859908 : ℚ) / 1000000) ++ ['m']⟩
      ∧ formatCPU "32859908n" = "32.86m"
      ∧ matchQL ("1847100Ki".data) = some ((1847100 : ℚ), ['K', 'i'])
      ∧ formatMemory "1847100Ki"
          = ⟨toFixed2L ((1847100 : ℚ) * unitMul (toLowerL ['K', 'i']) / 1024 ^ 3)
              ++ " GiB".data⟩
      ∧ formatMemory "1847100Ki" = "1.76 GiB" :=
  ⟨by decide,
    (claim_C7.1 "32859908n" 32859908 (by decide)).1 (by norm_num),
    by decide,
    by decide,
    (claim_C7.2.2.1 "1847100Ki" 1847100 ['K', 'i'] (by decide)).2.1
      (by rw [show unitMul (toLowerL ['K', 'i']) = (1024 : ℚ) from by decide]; norm_num)
      (by rw [show unitMul (toLowerL ['K', 'i']) = (1024 : ℚ) from by decide]; norm_num),
    by decide⟩

/-- C8, counterexample: the round-trip fails for the memory dimension. The
formatter's output "2.00 GiB" uses a display token (space + "GiB") outside
the parser grammar, so re-parsing reads it as 2 raw bytes — astronomically
outside the displayed rounding precision (half of 0.01 GiB) of
parse("2Gi") = 2147483648 bytes. `toKibibytes` misreads it the same way. -/
theorem claim_C8_counterexample :
    formatMemory "2Gi" = "2.00 GiB"
      ∧ memoryToBytes "2Gi" = 2147483648
      ∧ memoryToBytes "2.00 GiB" = 2
      ∧ ¬ |(2 : ℚ) - 2147483648| ≤ 1024 ^ 3 / 200
      ∧ toKibibytes "2.00 GiB" = JsNum.num (2 / 1024) := by
  refine ⟨by decide, by decide, by decide, by decide, by decide⟩

/-- The toFixed(2) rounding error, scaled into a base unit. -/
theorem toFixed2_scaled_bound (y : ℚ) (hy : 0 ≤ y) (scale : ℚ) (hs : 0 < scale) :
    |(((⌊y * 100 + 1 / 2⌋).toNat : ℚ) / 100) * scale - y * scale| ≤ scale / 200 := by
  have h := abs_toNat_floor_round (y * 100) (by positivity)
  have e : (((⌊y * 100 + 1 / 2⌋).toNat : ℚ) / 100) * scale - y * scale
      = (scale / 100) * ((((⌊y * 100 + 1 / 2⌋).toNat : ℕ) : ℚ) - y * 100) := by
    ring
  rw [e, abs_mul, abs_of_pos (show (0 : ℚ) < scale / 100 by positivity)]
  calc (scale / 100) * |(((⌊y * 100 + 1 / 2⌋).toNat : ℕ) : ℚ) - y * 100|
      ≤ (scale / 100) * (1 / 2) := by
        apply mul_le_mul_of_nonneg_left h (by positivity)
    _ = scale / 200 := by ring

/-- C8, amended: the round-trip property holds for the CPU dimension. For a
CPU quantity string s parsing to q ≥ 0 nanocores, rendering the pipeline's
rounded `${Math.round(q)}n` string through `formatCPU` and re-parsing with
`toNanocores` recovers q to within half of the last displayed decimal place
(5·10³ nanocores in the millicore regime, 5·10⁶ in the core regime) plus
the half-nanocore integer rounding. (For the memory dimension the property
fails — see the counterexample.) -/
theorem claim_C8_amended (s : String) (q : ℚ) (hq : toNanocores s = .num q)
    (h0 : 0 ≤ q) :
    ∃ r : ℚ, toNanocores ⟨formatCPUL (jsRoundStr (.num q) ++ ['n'])⟩ = .num r
      ∧ (((⌊q + 1 / 2⌋ : ℚ) / 1000000 < 1000 → |r - q| ≤ 5000 + 1 / 2)
        ∧ (¬ (⌊q + 1 / 2⌋ : ℚ) / 1000000 < 1000 → |r - q| ≤ 5000000 + 1 / 2)) := by
  have hm0 : (0 : ℤ) ≤ ⌊q + 1 / 2⌋ := Int.floor_nonneg.mpr (by linarith)
  have hMq : (((⌊q + 1 / 2⌋).toNat : ℕ) : ℚ) = ((⌊q + 1 / 2⌋ : ℤ) : ℚ) := by
    exact_mod_cast congrArg (fun z : ℤ => (z : ℚ)) (Int.toNat_of_nonneg hm0)
  have hflq : |(((⌊q + 1 / 2⌋).toNat : ℕ) : ℚ) - q| ≤ 1 / 2 :=
    abs_toNat_floor_round q h0
  have hjr : jsRoundStr (.num q) = natDigits ((⌊q + 1 / 2⌋).toNat) := by
    simp only [jsRoundStr, intStr, if_neg (not_lt.mpr hm0)]
  rw [hjr]
  have hfmt : formatCPUL (natDigits ((⌊q + 1 / 2⌋).toNat) ++ ['n'])
      = if ((((⌊q + 1 / 2⌋).toNat : ℕ) : ℚ)) / 1000000 < 1000
        then toFixed2L (((((⌊q + 1 / 2⌋).toNat : ℕ) : ℚ)) / 1000000) ++ ['m']
        else toFixed2L (((((⌊q + 1 / 2⌋).toNat : ℕ) : ℚ)) / 1000000 / 1000) := by
    unfold formatCPUL
    rw [stripTrailingN_append_n]
    simp only [parseIntDecL_natDigits, Int.cast_natCast]
  rw [hfmt]
  by_cases hlt : ((((⌊q + 1 / 2⌋).toNat : ℕ) : ℚ)) / 1000000 < 1000
  · rw [if_pos hlt]
    have hx0 : (0 : ℚ) ≤ (((⌊q + 1 / 2⌋).toNat : ℕ) : ℚ) / 1000000 := by positivity
    have htf : toFixed2L ((((⌊q + 1 / 2⌋).toNat : ℕ) : ℚ) / 1000000)
        = toFixed2Core ((((⌊q + 1 / 2⌋).toNat : ℕ) : ℚ) / 1000000) := by
      unfold toFixed2L
      rw [if_neg (not_lt.mpr hx0)]
    rw [htf]
    have htn := toNanocoresL_m _ _
      (jsParseFloatL_toFixed2Core ((((⌊q + 1 / 2⌋).toNat : ℕ) : ℚ) / 1000000))
    refine ⟨_, htn, fun _ => ?_, fun hcon => ?_⟩
    · have hb := toFixed2_scaled_bound
        ((((⌊q + 1 / 2⌋).toNat : ℕ) : ℚ) / 1000000) hx0 1000000 (by norm_num)
      have hxM : ((((⌊q + 1 / 2⌋).toNat : ℕ) : ℚ) / 1000000) * 1000000
          = (((⌊q + 1 / 2⌋).toNat : ℕ) : ℚ) := by field_simp
      rw [hxM] at hb
      have h3 : |(((⌊(((⌊q + 1 / 2⌋).toNat : ℕ) : ℚ) / 1000000 * 100 + 1 / 2⌋).toNat : ℕ) : ℚ)
            / 100 * 1000000 - q|
          ≤ |(((⌊(((⌊q + 1 / 2⌋).toNat : ℕ) : ℚ) / 1000000 * 100 + 1 / 2⌋).toNat : ℕ) : ℚ)
              / 100 * 1000000 - (((⌊q + 1 / 2⌋).toNat : ℕ) : ℚ)|
            + |(((⌊q + 1 / 2⌋).toNat : ℕ) : ℚ) - q| := by
        have he : (((⌊(((⌊q + 1 / 2⌋).toNat : ℕ) : ℚ) / 1000000 * 100 + 1 / 2⌋).toNat : ℕ) : ℚ)
              / 100 * 1000000 - q
            = ((((⌊(((⌊q + 1 / 2⌋).toNat : ℕ) : ℚ) / 1000000 * 100 + 1 / 2⌋).toNat : ℕ) : ℚ)
                / 100 * 1000000 - (((⌊q + 1 / 2⌋).toNat : ℕ) : ℚ))
              + ((((⌊q + 1 / 2⌋).toNat : ℕ) : ℚ) - q) := by ring
        rw [he]
        exact abs_add _ _
      linarith
    · rw [hMq] at hlt
      exact absurd hlt hcon
  · rw [if_neg hlt]
    have hx0 : (0 : ℚ) ≤ (((⌊q + 1 / 2⌋).toNat : ℕ) : ℚ) / 1000000 / 1000 := by positivity
    have htf : toFixed2L ((((⌊q + 1 / 2⌋).toNat : ℕ) : ℚ) / 1000000 / 1000)
        = toFixed2Core ((((⌊q + 1 / 2⌋).toNat : ℕ) : ℚ) / 1000000 / 1000) := by
      unfold toFixed2L
      rw [if_neg (not_lt.mpr hx0)]
    rw [htf]
    have htn := toNanocoresL_plain (toFixed2Core ((((⌊q + 1 / 2⌋).toNat : ℕ) : ℚ)
        / 1000000 / 1000)) _
      (toFixed2Core_ne_nil _)
      (toFixed2Core_ends_not _ 'm' (by decide))
      (toFixed2Core_ends_not _ 'n' (by decide))
      (jsParseFloatL_toFixed2Core ((((⌊q + 1 / 2⌋).toNat : ℕ) : ℚ) / 1000000 / 1000))
    refine ⟨_, htn, fun hcon => ?_, fun _ => ?_⟩
    · rw [hMq] at hlt
      exact absurd hcon hlt
    · have hb := toFixed2_scaled_bound
        ((((⌊q + 1 / 2⌋).toNat : ℕ) : ℚ) / 1000000 / 1000) hx0 1000000000 (by norm_num)
      have hxM : ((((⌊q + 1 / 2⌋).toNat : ℕ) : ℚ) / 1000000 / 1000) * 1000000000
          = (((⌊q + 1 / 2⌋).toNat : ℕ) : ℚ) := by
        field_simp
        exact Or.inl (by norm_num)
      rw [hxM] at hb
      have h3 : |(((⌊(((⌊q + 1 / 2⌋).toNat : ℕ) : ℚ) / 1000000 / 1000 * 100
              + 1 / 2⌋).toNat : ℕ) : ℚ) / 100 * 1000000000 - q|
          ≤ |(((⌊(((⌊q + 1 / 2⌋).toNat : ℕ) : ℚ) / 1000000 / 1000 * 100
                + 1 / 2⌋).toNat : ℕ) : ℚ) / 100 * 1000000000
              - (((⌊q + 1 / 2⌋).toNat : ℕ) : ℚ)|
            + |(((⌊q + 1 / 2⌋).toNat : ℕ) : ℚ) - q| := by
        have he : (((⌊(((⌊q + 1 / 2⌋).toNat : ℕ) : ℚ) / 1000000 / 1000 * 100
                + 1 / 2⌋).toNat : ℕ) : ℚ) / 100 * 1000000000 - q
            = ((((⌊(((⌊q + 1 / 2⌋).toNat : ℕ) : ℚ) / 1000000 / 1000 * 100
                  + 1 / 2⌋).toNat : ℕ) : ℚ) / 100 * 1000000000
                - (((⌊q + 1 / 2⌋).toNat : ℕ) : ℚ))
              + ((((⌊q + 1 / 2⌋).toNat : ℕ) : ℚ) - q) := by ring
        rw [he]
        exact abs_add _ _
      linarith

/-- C8, witness: the amended round-trip applied at the CPU string "500m". -/
theorem claim_C8_witness :
    toNanocores "500m" = JsNum.num 500000000
      ∧ ∃ r : ℚ,
          toNanocores ⟨formatCPUL (jsRoundStr (JsNum.num 500000000) ++ ['n'])⟩
              = JsNum.num r
            ∧ (((⌊(500000000 : ℚ) + 1 / 2⌋ : ℚ) / 1000000 < 1000 →
                  |r - 500000000| ≤ 5000 + 1 / 2)
              ∧ (¬ (⌊(500000000 : ℚ) + 1 / 2⌋ : ℚ) / 1000000 < 1000 →
                  |r - 500000000| ≤ 5000000 + 1 / 2)) :=
  ⟨by decide, claim_C8_amended "500m" 500000000 (by decide) (by norm_num)⟩

/-- C1, counterexample: with the metrics add-on available and reporting a
sample whose usage sums to zero, the overview reports `used` as `null`
(absent) for both dimensions — not as the zero quantity the claim
requires. -/
theorem claim_C1_counterexample :
    portC1.nodeMetrics = Except.ok [zeroUsageMetric]
      ∧ Except.map (fun o => (o.nodes.cpu.used, o.nodes.memory.used))
          (getClusterOverview 0 portC1) = Except.ok (none, none) := by
  refine ⟨rfl, by decide⟩

/-- C1, amended: in the strict variant (part_016), `used` is absent exactly
when the summed usage samples are not strictly positive — which happens
when the add-on is unavailable, produced no samples, or the samples sum to
zero — and an unavailable add-on always yields absent with no synthetic
estimate; the other variant (part_017) does substitute an estimate when the
add-on is unavailable, charging 50% of each node's allocatable CPU as used
(a node with allocatable cpu "2" contributes 1 core). -/
theorem claim_C1_amended (now : ℤ) (port : ClusterReadPort) (o : Overview)
    (h : getClusterOverview now port = Except.ok o) :
    (∀ e, port.nodeMetrics = .error e →
        o.nodes.cpu.used = none ∧ o.nodes.memory.used = none)
      ∧ (∀ ms, port.nodeMetrics = .ok ms →
          ((o.nodes.cpu.used = none ↔ jsGtB (usedCpuSum ms) (.num 0) = false)
            ∧ (o.nodes.memory.used = none ↔ jsGtB (usedMemSum ms) (.num 0) = false)))
      ∧ part017UsedCpuFallback [allocNode2] = JsNum.num 1 := by
  obtain ⟨ns, ps, nss, ds, hn, hp, hns, hd, ho⟩ := getClusterOverview_ok_inv h
  subst ho
  refine ⟨?_, ?_, by decide⟩
  · intro e he
    constructor
    · simp [mkOverview, usedCpuOf, he, jsGtB]
    · simp [mkOverview, usedMemOf, he, jsGtB]
  · intro ms hms
    constructor
    · cases hb : jsGtB (usedCpuSum ms) (.num 0) with
      | true => simp [mkOverview, usedCpuOf, hms, hb]
      | false => simp [mkOverview, usedCpuOf, hms, hb]
    · cases hb : jsGtB (usedMemSum ms) (.num 0) with
      | true => simp [mkOverview, usedMemOf, hms, hb]
      | false => simp [mkOverview, usedMemOf, hms, hb]

/-- C1, witness: the amended theorem applied to the zero-sample port: with
the add-on available and a zero-usage sample, both `used` fields are
absent because the sums are not positive. -/
theorem claim_C1_witness :
    getClusterOverview 0 portC1
        = Except.ok (mkOverview 0 portC1 [] [] [] [])
      ∧ ((mkOverview 0 portC1 [] [] [] []).nodes.cpu.used = none
          ↔ jsGtB (usedCpuSum [zeroUsageMetric]) (.num 0) = false)
      ∧ jsGtB (usedCpuSum [zeroUsageMetric]) (.num 0) = false :=
  ⟨by decide,
    ((claim_C1_amended 0 portC1 (mkOverview 0 portC1 [] [] [] [])
        (by decide)).2.1 [zeroUsageMetric] rfl).1,
    by decide⟩

/-- C5, confirmed: the overview build succeeds exactly when the four
required reads (nodes, pods, namespaces, deployments) succeed; a failing
required read surfaces its error to the caller; and a failure of the
optional events read is non-fatal — the build completes with zero warnings
and zero errors. -/
theorem claim_C5 (now : ℤ) (port : ClusterReadPort) :
    ((getClusterOverview now port).isOk = true
        ↔ (port.nodes.isOk = true ∧ port.pods.isOk = true
            ∧ port.namespaces.isOk = true ∧ port.deployments.isOk = true))
      ∧ (∀ e, port.nodes = .error e → getClusterOverview now port = .error e)
      ∧ (∀ e ns, port.nodes = .ok ns → port.pods = .error e →
          getClusterOverview now port = .error e)
      ∧ (∀ e ns ps, port.nodes = .ok ns → port.pods = .ok ps →
          port.namespaces = .error e → getClusterOverview now port = .error e)
      ∧ (∀ e ns ps nss, port.nodes = .ok ns → port.pods = .ok ps →
          port.namespaces = .ok nss → port.deployments = .error e →
          getClusterOverview now port = .error e)
      ∧ (∀ e o, port.events = .error e → getClusterOverview now port = .ok o →
          o.events.warnings = 0 ∧ o.events.errors = 0) := by
  refine ⟨getClusterOverview_isOk_iff now port, ?_, ?_, ?_, ?_, ?_⟩
  · intro e he
    unfold getClusterOverview
    rw [he]
  · intro e ns hn hp
    unfold getClusterOverview
    rw [hn, hp]
  · intro e ns ps hn hp hns
    unfold getClusterOverview
    rw [hn, hp, hns]
  · intro e ns ps nss hn hp hns hd
    unfold getClusterOverview
    rw [hn, hp, hns, hd]
  · intro e o he h
    obtain ⟨ns, ps, nss, ds, hn, hp, hns, hd, ho⟩ := getClusterOverview_ok_inv h
    subst ho
    constructor
    · simp [mkOverview, eventsOf, he, analyzeEvents]
    · simp [mkOverview, eventsOf, he, analyzeEvents]

/-- C5, witness: the theorem applied to a port whose events read failed but
whose required reads succeed: the build is ok and reports zero warnings and
errors. -/
theorem claim_C5_witness :
    (getClusterOverview 0 portC5W).isOk = true
      ∧ portC5W.events = Except.error "events read failed"
      ∧ Except.map (fun o => (o.events.warnings, o.events.errors))
          (getClusterOverview 0 portC5W) = Except.ok (0, 0) :=
  ⟨(claim_C5 0 portC5W).1.mpr ⟨rfl, rfl, rfl, rfl⟩, rfl, by decide⟩

/-- C9, confirmed: permuting the node list and the pod list (the
collections whose parsed quantities feed the total/requested/limited
figures) leaves every `total`, `requests` and `limits` field of the
overview's CPU and memory figures unchanged — the aggregation sums are
order-independent. -/
theorem claim_C9 (now : ℤ) (p₁ p₂ : ClusterReadPort) (ns₁ ns₂ : List Node)
    (ps₁ ps₂ : List Pod)
    (hn₁ : p₁.nodes = .ok ns₁) (hn₂ : p₂.nodes = .ok ns₂) (hnp : ns₁.Perm ns₂)
    (hp₁ : p₁.pods = .ok ps₁) (hp₂ : p₂.pods = .ok ps₂) (hpp : ps₁.Perm ps₂)
    (hns : p₁.namespaces = p₂.namespaces) (hd : p₁.deployments = p₂.deployments) :
    Except.map overviewFigures (getClusterOverview now p₁)
      = Except.map overviewFigures (getClusterOverview now p₂) := by
  cases hnss : p₁.namespaces with
  | error e =>
      have hnss₂ : p₂.namespaces = .error e := by rw [← hns, hnss]
      unfold getClusterOverview
      rw [hn₁, hp₁, hnss, hn₂, hp₂, hnss₂]
  | ok nss =>
      have hnss₂ : p₂.namespaces = .ok nss := by rw [← hns, hnss]
      cases hds : p₁.deployments with
      | error e =>
          have hds₂ : p₂.deployments = .error e := by rw [← hd, hds]
          unfold getClusterOverview
          rw [hn₁, hp₁, hnss, hds, hn₂, hp₂, hnss₂, hds₂]
      | ok ds =>
          have hds₂ : p₂.deployments = .ok ds := by rw [← hd, hds]
          rw [getClusterOverview_ok hn₁ hp₁ hnss hds,
            getClusterOverview_ok hn₂ hp₂ hnss₂ hds₂]
          simp only [Except.map]
          have h1 := totalCpuSum_perm hnp
          have h2 := totalMemSum_perm hnp
          have h3 := requestedCpuSum_perm hpp
          have h4 := requestedMemSum_perm hpp
          have h5 := limitCpuSum_perm hpp
          have h6 := limitMemSum_perm hpp
          simp [overviewFigures, mkOverview, h1, h2, h3, h4, h5, h6]

/-- C9, witness: the theorem applied to two ports holding the same two
nodes and two pods in swapped order. -/
theorem claim_C9_witness :
    Except.map overviewFigures (getClusterOverview 0 portC9A)
      = Except.map overviewFigures (getClusterOverview 0 portC9B) :=
  claim_C9 0 portC9A portC9B [nodeA, nodeB] [nodeB, nodeA] [podA, podB] [podB, podA]
    rfl rfl (List.Perm.swap nodeB nodeA []) rfl rfl (List.Perm.swap podB podA [])
    rfl rfl

/-- C10, confirmed: a recent event (strictly inside the one-hour window)
whose type is Warning and whose reason is Failed or FailedScheduling
increments both the warnings counter and the errors counter, so the two
buckets overlap and their sum grows by two for a single event — warnings +
errors can exceed the number of recent events. -/
theorem claim_C10 (now : ℤ) (es : List Event) (e : Event) (t : ℤ)
    (ht : eventTimeOf e = some t) (hrec : now - 3600000 < t)
    (hw : e.type = some "Warning")
    (hr : e.reason = some "Failed" ∨ e.reason = some "FailedScheduling") :
    analyzeEvents now (e :: es)
        = ((analyzeEvents now es).1 + 1, (analyzeEvents now es).2 + 1)
      ∧ (analyzeEvents now (e :: es)).1 + (analyzeEvents now (e :: es)).2
        = (analyzeEvents now es).1 + (analyzeEvents now es).2 + 2 := by
  have hstep : analyzeStep now (0, 0) e = (1, 1) := by
    unfold analyzeStep
    rw [ht]
    rcases hr with hr | hr <;> simp [hrec, hw, hr]
  have hconv : analyzeEvents now (e :: es)
      = List.foldl (analyzeStep now) (1, 1) es := by
    show List.foldl (analyzeStep now) (analyzeStep now (0, 0) e) es = _
    rw [hstep]
  rw [hconv, analyzeEvents_shift now es 1 1]
  constructor
  · rw [Prod.mk.injEq]
    constructor <;> omega
  · simp only []
    omega

/-- C10, witness: the theorem applied to the concrete recent Warning/Failed
event on the empty tail: both counters become 1, and their sum 2 exceeds
the single recent event. -/
theorem claim_C10_witness :
    eventTimeOf eventC10 = some 1
      ∧ eventC10.type = some "Warning"
      ∧ analyzeEvents 0 [eventC10]
          = ((analyzeEvents 0 []).1 + 1, (analyzeEvents 0 []).2 + 1)
      ∧ (analyzeEvents 0 [eventC10]).1 + (analyzeEvents 0 [eventC10]).2 = 2 :=
  ⟨rfl, rfl,
    (claim_C10 0 [] eventC10 1 rfl (by norm_num) rfl (Or.inl rfl)).1,
    by decide⟩

end ClaimProofs
